import Mathlib

/-!
# Verification of the SmartArt diagram-synthesis and injection module

A shallow embedding of `smartart.py`: the DrawingML diagram data model
(points and connections), the flat and hierarchy data-model synthesis
algorithms, the template part repository, and the package injector,
together with theorems settling the specification claims.
-/

set_option autoImplicit false
set_option maxHeartbeats 1000000

namespace SmartArt

/-! ## Data model

A diagram data part is a list of points (`dgm:pt`) and a list of
connections (`dgm:cxn`).  A point's `type` attribute is absent (`none`)
for data nodes and otherwise one of `"doc"`, `"parTrans"`, `"sibTrans"`,
`"pres"`.  Style/property children (`prSet`, `spPr`, ...) are opaque and
modelled by an abstract `payload` token, preserved verbatim by cloning.
-/

/-- A `dgm:pt` element: `modelId`, optional `type` attribute, the text
content of its `dgm:t` child (if any), an opaque style payload, and the
optional `cxnId` attribute carried by transition points. -/
structure Pt where
  modelId : String
  ptType : Option String
  text : Option String
  payload : Nat
  cxnAttr : Option String
deriving Repr, DecidableEq

/-- A `dgm:cxn` element.  `cxnType` models the `type` attribute
(`none` when absent); `srcOrd`/`destOrd` are the numeric ordering keys;
`parTransId`/`sibTransId` default to `""` when absent, as
`cxn.get("parTransId", "")` does. -/
structure Cxn where
  modelId : String
  cxnType : Option String
  srcId : String
  destId : String
  srcOrd : Int
  destOrd : Int
  parTransId : String
  sibTransId : String
deriving Repr, DecidableEq

/-- The diagram data model: the `ptLst` and `cxnLst` of a data part. -/
structure DataModel where
  ptLst : List Pt
  cxnLst : List Cxn
deriving Repr, DecidableEq

/-- The data nodes of a graph: points whose `type` attribute is absent,
in document order (`pt.get("type") is None`). -/
def dataNodes (g : DataModel) : List Pt :=
  g.ptLst.filter (fun p => p.ptType.isNone)

/-- `_set_node_text`: set the text content of a point (both branches of
the source end with the point's `a:t` text set to `text`). -/
def setNodeText (p : Pt) (t : String) : Pt :=
  { p with text := some t }

/-- The per-point text-update pass of `_modify_template_data_flat`:
walk the point list, giving the i-th data node the i-th item text;
non-data points and items beyond the data-node count are untouched. -/
def setFlatTexts : List Pt → List String → List Pt
  | [], _ => []
  | p :: ps, items =>
    if p.ptType.isNone then
      match items with
      | [] => p :: setFlatTexts ps []
      | t :: ts => setNodeText p t :: setFlatTexts ps ts
    else
      p :: setFlatTexts ps items

/-- Does a connection name one of `ids` as destination or source
(the pass-1 test of `_remove_excess_nodes`)? -/
def touchesRemoved (ids : List String) (c : Cxn) : Bool :=
  ids.contains c.destId || ids.contains c.srcId

/-- Pass 1 of `_remove_excess_nodes`: collect the `parTransId` and
`sibTransId` attributes (when nonempty) of every connection touching a
removed data node. -/
def collectTransIds (ids : List String) (cxns : List Cxn) : List String :=
  cxns.foldl
    (fun acc c =>
      if touchesRemoved ids c then
        (acc ++ (if c.parTransId ≠ "" then [c.parTransId] else []))
          ++ (if c.sibTransId ≠ "" then [c.sibTransId] else [])
      else acc)
    []

/-- Pass 2 of `_remove_excess_nodes`: a single in-order scan that flags
`presOf` connections whose source is being removed (recording their
destinations as presentation points to remove) and `presParOf`
connections whose destination was *already* recorded by the time they
are scanned.  Returns each connection with its removal flag, plus the
accumulated presentation-point ids. -/
def presScan (allR : List String) : List Cxn → List String → List (Cxn × Bool) × List String
  | [], pres => ([], pres)
  | c :: cs, pres =>
    if c.cxnType == some "presOf" && allR.contains c.srcId then
      let r := presScan allR cs (pres ++ [c.destId])
      ((c, true) :: r.1, r.2)
    else if c.cxnType == some "presParOf" && pres.contains c.destId then
      let r := presScan allR cs pres
      ((c, true) :: r.1, r.2)
    else
      let r := presScan allR cs pres
      ((c, false) :: r.1, r.2)

/-- The data-node ids dropped by `_remove_excess_nodes` when keeping
`keepCount` data nodes. -/
def removedDataIds (g : DataModel) (keepCount : Nat) : List String :=
  ((dataNodes g).drop keepCount).map (fun p => p.modelId)

/-- The transition-point ids collected by pass 1 of
`_remove_excess_nodes`. -/
def removedTransIds (g : DataModel) (keepCount : Nat) : List String :=
  collectTransIds (removedDataIds g keepCount) g.cxnLst

/-- The flagged-connection list produced by pass 2 of
`_remove_excess_nodes`. -/
def removalScan (g : DataModel) (keepCount : Nat) : List (Cxn × Bool) × List String :=
  presScan (removedDataIds g keepCount ++ removedTransIds g keepCount) g.cxnLst []

/-- The presentation-point ids collected by pass 2 of
`_remove_excess_nodes`. -/
def removedPresIds (g : DataModel) (keepCount : Nat) : List String :=
  (removalScan g keepCount).2

/-- `_remove_excess_nodes`: remove the data nodes beyond `keepCount`,
the transition ids referenced by connections touching them, the
presentation points flagged by the scan, every connection touching a
removed data node, and every connection flagged by the scan. -/
def removeExcessNodes (g : DataModel) (keepCount : Nat) : DataModel :=
  let toRemoveIds := removedDataIds g keepCount
  let allRemove := toRemoveIds ++ removedTransIds g keepCount ++ removedPresIds g keepCount
  { ptLst := g.ptLst.filter (fun p => !(allRemove.contains p.modelId)),
    cxnLst :=
      ((removalScan g keepCount).1.filter
        (fun cb => !(touchesRemoved toRemoveIds cb.1 || cb.2))).map (fun cb => cb.1) }

/-- The data point appended by one iteration of the `_add_extra_nodes`
loop: a deep copy of the seed's last data node with a fresh `modelId`
and the new item text. -/
def clonedDataPt (lastNode : Pt) (newId : String) (t : String) : Pt :=
  setNodeText { lastNode with modelId := newId } t

/-- A transition point created by `_add_extra_nodes` (`parTrans` or
`sibTrans`), holding only blank `prSet`/`spPr` children. -/
def newTransPt (transId : String) (kind : String) (cxnId : String) : Pt :=
  { modelId := transId, ptType := some kind, text := none, payload := 0,
    cxnAttr := some cxnId }

/-- The three points appended for the i-th extra item. -/
def newPtsFor (fresh : Nat → String) (lastNode : Pt) (i : Nat) (t : String) : List Pt :=
  [clonedDataPt lastNode (fresh (4 * i)) t,
   newTransPt (fresh (4 * i + 1)) "parTrans" (fresh (4 * i + 3)),
   newTransPt (fresh (4 * i + 2)) "sibTrans" (fresh (4 * i + 3))]

/-- The `parOf` connection appended for the i-th extra item. -/
def newCxnFor (fresh : Nat → String) (docId : String) (lastOrd : Int) (i : Nat) : Cxn :=
  { modelId := fresh (4 * i + 3), cxnType := some "parOf",
    srcId := docId, destId := fresh (4 * i),
    srcOrd := lastOrd + i + 1, destOrd := 0,
    parTransId := fresh (4 * i + 1), sibTransId := fresh (4 * i + 2) }

/-- The `modelId` of the first point whose `type` is `"doc"` (the parent
under which `_add_extra_nodes` attaches new nodes), or `""` if absent. -/
def docIdOf (g : DataModel) : String :=
  (((g.ptLst.find? (fun p => p.ptType == some "doc")).map (fun p => p.modelId))).getD ""

/-- The `srcOrd` of the first `parOf` connection whose destination is
the given node id, or `0` if none (the `last_ord` of
`_add_extra_nodes`). -/
def lastOrdOf (g : DataModel) (lastId : String) : Int :=
  (((g.cxnLst.find? (fun c => c.cxnType == some "parOf" && c.destId == lastId)).map
    (fun c => c.srcOrd))).getD 0

/-- `_add_extra_nodes`: if the graph has no data nodes, return it
unchanged; otherwise clone the last data node once per extra item,
appending one data point, a `parTrans`/`sibTrans` pair, and a `parOf`
connection per item, with fresh model ids drawn from `fresh` and
successive ordering keys starting at the last node's key plus one. -/
def addExtraNodes (fresh : Nat → String) (g : DataModel) (extra : List String) : DataModel :=
  match (dataNodes g).getLast? with
  | none => g
  | some lastNode =>
    let docId := docIdOf g
    let lastOrd := lastOrdOf g lastNode.modelId
    { ptLst := g.ptLst ++ (extra.enum.map (fun it => newPtsFor fresh lastNode it.1 it.2)).flatten,
      cxnLst := g.cxnLst ++ extra.enum.map (fun it => newCxnFor fresh docId lastOrd it.1) }

/-- `_modify_template_data_flat`: update the texts of the existing data
nodes, then remove surplus nodes or append extra nodes so that the
data-node count matches the item count. -/
def modifyTemplateDataFlat (fresh : Nat → String) (g : DataModel) (items : List String) : DataModel :=
  let dnCount := (dataNodes g).length
  let g1 : DataModel := { g with ptLst := setFlatTexts g.ptLst items }
  let g2 := if items.length < dnCount then removeExcessNodes g1 items.length else g1
  if dnCount < items.length then addExtraNodes fresh g2 (items.drop dnCount) else g2

/-- Connections whose source or destination id names no point in the
graph (the "dangling connection endpoints" of the deletion-cascade
property). -/
def danglingEndpoints (g : DataModel) : List Cxn :=
  let ids := g.ptLst.map (fun p => p.modelId)
  g.cxnLst.filter (fun c => !(ids.contains c.srcId) || !(ids.contains c.destId))

/-! ## String scanning

Substring tests (`pat in s`) and the split-based index parsing of
`_next_diagram_id`, implemented over character lists. -/

/-- The characters after the first occurrence of `pat`, or `none` when
`pat` does not occur (`s.split(pat)[1]` exists iff this is `some`). -/
def afterFirstPat (pat : List Char) : List Char → Option (List Char)
  | [] => none
  | c :: cs =>
    if pat.isPrefixOf (c :: cs) then some ((c :: cs).drop pat.length)
    else afterFirstPat pat cs

/-- The characters before the first occurrence of `pat` (all of them
when `pat` does not occur): `s.split(pat)[0]`. -/
def takeUntilPat (pat : List Char) : List Char → List Char
  | [] => []
  | c :: cs =>
    if pat.isPrefixOf (c :: cs) then []
    else c :: takeUntilPat pat cs

/-- Python's `pat in s` for a nonempty pattern. -/
def strHas (s pat : String) : Bool :=
  (afterFirstPat pat.data s.data).isSome

/-- Decimal digit value of a character, if it is a digit. -/
def charDigit (c : Char) : Option Nat :=
  if '0' ≤ c ∧ c ≤ '9' then some (c.toNat - '0'.toNat) else none

/-- Parse a nonempty all-digit character list as a natural number
(`int(...)` minus sign handling; anything else raises `ValueError`). -/
def natOfChars : List Char → Option Nat
  | [] => none
  | cs =>
    cs.foldl
      (fun acc c =>
        match acc, charDigit c with
        | some n, some d => some (10 * n + d)
        | _, _ => none)
      (some 0)

/-- Parse an optionally `-`-signed integer literal (`int(...)`,
returning `none` where Python raises `ValueError`). -/
def intOfChars : List Char → Option Int
  | '-' :: rest => (natOfChars rest).map (fun n => -(n : Int))
  | cs => (natOfChars cs).map (fun n => (n : Int))

/-- The index parsed from one relationship target by
`_next_diagram_id`: when `"diagrams/data"` occurs in the target, the
integer written between the first `"data"` and the following `"."`
(`int(target.split("data")[1].split(".")[0])`); `none` when absent or
unparsable. -/
def parseDataIdx (target : String) : Option Int :=
  if strHas target "diagrams/data" then
    match afterFirstPat "data".data target.data with
    | some rest => intOfChars (takeUntilPat ".".data (takeUntilPat "data".data rest))
    | none => none
  else none

/-! ## The target document and the package injector -/

/-- A relationship of the host document part: its type string and its
target part name. -/
structure Rel where
  reltype : String
  target : String
deriving Repr, DecidableEq

/-- `_next_diagram_id`: one more than the maximum diagram-data index
among the document's existing relationships (`max(existing, default=0)
+ 1`). -/
def nextDiagramId (rels : List Rel) : Int :=
  let existing := rels.filterMap (fun r => parseDataIdx r.target)
  (match existing with
   | [] => 0
   | x :: xs => xs.foldl max x) + 1

/-! ## Template part repository -/

/-- Errors of template extraction: `notFound` models the
`FileNotFoundError` raised when the template bundle is absent,
`missingParts` the `ValueError` listing the missing required parts, and
`relsMissing` the `KeyError` raised when the bundle has no
`document.xml.rels` entry. -/
inductive TemplateError where
  | notFound (name : String)
  | missingParts (missing : List String)
  | relsMissing
deriving Repr, DecidableEq

deriving instance DecidableEq for Except

/-- A template bundle: the archive entries under a name each holding an
opaque payload, plus the relationship manifest (`Type`, `Target`) pairs
of `word/_rels/document.xml.rels` when that entry exists. -/
structure Bundle (α : Type) where
  entries : List (String × α)
  relsManifest : Option (List (String × String))
deriving Repr, DecidableEq

/-- The file-name patterns mapped to part keys by
`_extract_template_parts`, in dictionary order. -/
def partPatterns : List (String × String) :=
  [("data", "data"), ("layout", "layout"), ("quickStyle", "style"),
   ("colors", "colors"), ("drawing", "drawing")]

/-- The first pattern (in `part_map` order) occurring in an entry name,
mapped to its part key. -/
def firstPatternKey (name : String) : Option String :=
  (partPatterns.find? (fun pk => strHas name pk.1)).map (fun pk => pk.2)

/-- The partially filled parts dictionary of
`_extract_template_parts`. -/
structure PartsAcc (α : Type) where
  dataPart : Option α := none
  layoutPart : Option α := none
  stylePart : Option α := none
  colorsPart : Option α := none
  drawingPart : Option α := none
deriving Repr, DecidableEq

/-- `parts[key] = value` for the five part keys. -/
def setPartKey {α : Type} (acc : PartsAcc α) (key : String) (v : α) : PartsAcc α :=
  if key = "data" then { acc with dataPart := some v }
  else if key = "layout" then { acc with layoutPart := some v }
  else if key = "style" then { acc with stylePart := some v }
  else if key = "colors" then { acc with colorsPart := some v }
  else if key = "drawing" then { acc with drawingPart := some v }
  else acc

/-- Look a part key up in the accumulator. -/
def getPartKey {α : Type} (acc : PartsAcc α) (key : String) : Option α :=
  if key = "data" then acc.dataPart
  else if key = "layout" then acc.layoutPart
  else if key = "style" then acc.stylePart
  else if key = "colors" then acc.colorsPart
  else if key = "drawing" then acc.drawingPart
  else none

/-- The entry-collection loop of `_extract_template_parts`: entries not
under `diagrams/` are skipped; otherwise the first matching pattern
decides the key, later entries overwriting earlier ones. -/
def collectParts {α : Type} (entries : List (String × α)) : PartsAcc α :=
  entries.foldl
    (fun acc e =>
      if strHas e.1 "diagrams/" then
        match firstPatternKey e.1 with
        | some k => setPartKey acc k e.2
        | none => acc
      else acc)
    {}

/-- The five required part keys. -/
def requiredParts : List String :=
  ["data", "layout", "style", "colors", "drawing"]

/-- The required keys missing from the accumulator. -/
def missingOf {α : Type} (acc : PartsAcc α) : List String :=
  requiredParts.filter (fun k => (getPartKey acc k).isNone)

/-- The complete five-artifact result of `_extract_template_parts`. -/
structure TParts (α : Type) where
  data : α
  layout : α
  style : α
  colors : α
  drawing : α
deriving Repr, DecidableEq

/-- `_extract_template_parts`: raise `FileNotFoundError` when the
bundle is absent, collect the parts by name pattern, and raise
`ValueError` naming the missing parts unless all five are present. -/
def extractTemplateParts {α : Type} (fs : String → Option (Bundle α)) (name : String) :
    Except TemplateError (TParts α) :=
  match fs name with
  | none => .error (.notFound name)
  | some b =>
    let acc := collectParts b.entries
    match acc.dataPart, acc.layoutPart, acc.stylePart, acc.colorsPart, acc.drawingPart with
    | some d, some l, some s, some c, some dr => .ok ⟨d, l, s, c, dr⟩
    | _, _, _, _, _ => .error (.missingParts (missingOf acc))

/-- The relationship-type dictionary built by
`_extract_rels_from_template`. -/
structure RelTypes where
  dataType : Option String := none
  layoutType : Option String := none
  styleType : Option String := none
  colorsType : Option String := none
  drawingType : Option String := none
deriving Repr, DecidableEq

/-- One step of the classification loop of
`_extract_rels_from_template`, keyed on substrings of the `Type`
attribute. -/
def relTypeStep (acc : RelTypes) (r : String × String) : RelTypes :=
  if strHas r.1 "diagramData" then { acc with dataType := some r.1 }
  else if strHas r.1 "diagramLayout" then { acc with layoutType := some r.1 }
  else if strHas r.1 "diagramStyle" || strHas r.1 "diagramQuickStyle" then
    { acc with styleType := some r.1 }
  else if strHas r.1 "diagramColors" then { acc with colorsType := some r.1 }
  else if strHas r.1 "diagramDrawing" then { acc with drawingType := some r.1 }
  else acc

/-- The per-relationship classification loop of
`_extract_rels_from_template`; a later matching relationship overwrites
an earlier one. -/
def extractRelTypes (manifest : List (String × String)) : RelTypes :=
  manifest.foldl relTypeStep {}

/-- `_extract_rels_from_template`: open the bundle (raising
`FileNotFoundError` when absent), read its relationship manifest
(raising `KeyError` when the entry is missing), and classify the
relationship types. -/
def extractRelsFromTemplate {α : Type} (fs : String → Option (Bundle α)) (name : String) :
    Except TemplateError RelTypes :=
  match fs name with
  | none => .error (.notFound name)
  | some b =>
    match b.relsManifest with
    | none => .error .relsMissing
    | some m => .ok (extractRelTypes m)

/-- Fallback relationship type for the diagram data part. -/
def rtDgmData : String :=
  "http://schemas.openxmlformats.org/officeDocument/2006/relationships/diagramData"

/-- Fallback relationship type for the diagram layout part. -/
def rtDgmLayout : String :=
  "http://schemas.openxmlformats.org/officeDocument/2006/relationships/diagramLayout"

/-- Fallback relationship type for the diagram style part. -/
def rtDgmStyle : String :=
  "http://schemas.microsoft.com/office/2007/relationships/diagramStyle"

/-- Fallback relationship type for the diagram colors part. -/
def rtDgmColors : String :=
  "http://schemas.microsoft.com/office/2007/relationships/diagramColors"

/-- Fallback relationship type for the diagram drawing part. -/
def rtDgmDrawing : String :=
  "http://schemas.microsoft.com/office/2007/relationships/diagramDrawing"

/-- The inline graphic-reference paragraph appended to the document
body, carrying the diagram index and the four relationship tokens
(`r:dm`, `r:lo`, `r:qs`, `r:cs`). -/
structure RefPara where
  idx : Int
  dm : Nat
  lo : Nat
  qs : Nat
  cs : Nat
deriving Repr, DecidableEq

/-- The mutable state of the target document: headings added to the
body, the `compatSetting` list of the settings part, the document
part's relationships, and the appended reference paragraphs. -/
structure Doc where
  headings : List String
  compatSettings : List (String × String)
  rels : List Rel
  body : List RefPara
deriving Repr, DecidableEq

/-- `_ensure_modern_compat`: set the first `compatibilityMode` setting
to `"15"`, appending one when absent. -/
def setCompat15 : List (String × String) → List (String × String)
  | [] => [("compatibilityMode", "15")]
  | (n, v) :: rest =>
    if n = "compatibilityMode" then (n, "15") :: rest
    else (n, v) :: setCompat15 rest

/-- `_inject_smartart`: allocate the next diagram index, upgrade the
compatibility mode, re-extract the template parts and relationship
types (failures abort with the document mutated so far), then register
the five artifact relationships — each typed by the string extracted
from the template, falling back to the hard-coded constant when the
manifest lacked that kind — and append the inline reference
paragraph. -/
def injectSmartart (fs : String → Option (Bundle DataModel)) (d : Doc) (name : String)
    (_dataXml : DataModel) : Doc × Option TemplateError :=
  let idx := nextDiagramId d.rels
  let d1 : Doc := { d with compatSettings := setCompat15 d.compatSettings }
  match extractTemplateParts fs name with
  | .error e => (d1, some e)
  | .ok _parts =>
    match extractRelsFromTemplate fs name with
    | .error e => (d1, some e)
    | .ok rt =>
      let n0 := d1.rels.length
      let newRels : List Rel :=
        [⟨rt.dataType.getD rtDgmData, "/word/diagrams/data" ++ toString idx ++ ".xml"⟩,
         ⟨rt.layoutType.getD rtDgmLayout, "/word/diagrams/layout" ++ toString idx ++ ".xml"⟩,
         ⟨rt.styleType.getD rtDgmStyle, "/word/diagrams/quickStyle" ++ toString idx ++ ".xml"⟩,
         ⟨rt.colorsType.getD rtDgmColors, "/word/diagrams/colors" ++ toString idx ++ ".xml"⟩,
         ⟨rt.drawingType.getD rtDgmDrawing, "/word/diagrams/drawing" ++ toString idx ++ ".xml"⟩]
      ({ d1 with
          rels := d1.rels ++ newRels,
          body := d1.body ++ [⟨idx, n0 + 1, n0 + 2, n0 + 3, n0 + 4⟩] }, none)

/-! ## Hierarchy synthesis -/

/-- A node of the caller-supplied nested label structure: one dict key
with its child structure. -/
inductive HNode where
  | node (label : String) (children : List HNode)
deriving Repr

/-- Depth-first flattening of the caller structure
(`flatten_hierarchy`). -/
def flattenHs : List HNode → List String
  | [] => []
  | .node l cs :: rest => l :: (flattenHs cs ++ flattenHs rest)

/-- Strict tuple order on `(srcOrd, destId)` pairs, as Python compares
`(int, str)` tuples. -/
def pairLt (a b : Int × String) : Bool :=
  a.1 < b.1 || (a.1 == b.1 && decide (a.2 < b.2))

/-- Stable insertion of one element into a sorted list (placing the new
element before the first strictly greater one). -/
def insertSorted (x : Int × String) : List (Int × String) → List (Int × String)
  | [] => [x]
  | y :: ys => if pairLt y x then y :: insertSorted x ys else x :: y :: ys

/-- Stable sort by tuple order (the `children_map[k].sort()` of
`_modify_template_data_hierarchy`). -/
def sortPairs (l : List (Int × String)) : List (Int × String) :=
  l.foldr insertSorted []

/-- The ids of the graph's data nodes. -/
def dataIds (g : DataModel) : List String :=
  (dataNodes g).map (fun p => p.modelId)

/-- The `(srcOrd, destId)` pairs of the `parOf` connections leaving
`src` whose destination is a data node, in ordering-key order (the
sorted `children_map` of `_modify_template_data_hierarchy`). -/
def childrenPairs (g : DataModel) (src : String) : List (Int × String) :=
  sortPairs
    (g.cxnLst.filterMap
      (fun c =>
        if c.cxnType == some "parOf" && c.srcId == src && (dataIds g).contains c.destId then
          some (c.srcOrd, c.destId)
        else none))

/-- The child ids of `src` in ordering-key order. -/
def hierChildren (g : DataModel) (src : String) : List String :=
  (childrenPairs g src).map (fun pr => pr.2)

/-- `walk_and_assign`: visit a sibling list depth-first, assigning each
visited node the next caller label and recursing into its children,
stopping once the labels are exhausted.  Returns the `(node id, label)`
assignments in visit order; the labels remaining after a subtree are
the input labels with one dropped per assignment made. -/
def walkChildren (cm : String → List String) : List String → List String → List (String × String)
  | [], _ => []
  | _ :: _, [] => []
  | c :: cs, l :: ls =>
    let a1 := walkChildren cm (cm c) ls
    let a2 := walkChildren cm cs (ls.drop a1.length)
    (c, l) :: (a1 ++ a2)
termination_by _cs labels => labels.length
decreasing_by
  · simp
  · simp
    omega

/-- The depth-first visit order of the seed hierarchy, truncated to a
budget of `n` visits: the node sequence `walk_and_assign` visits when
`n` labels are available. -/
def dfsTake (cm : String → List String) : List String → Nat → List String
  | [], _ => []
  | _ :: _, 0 => []
  | c :: cs, n + 1 =>
    let v1 := dfsTake cm (cm c) n
    let v2 := dfsTake cm cs (n - v1.length)
    c :: (v1 ++ v2)
termination_by _cs n => n
decreasing_by
  · omega
  · omega

/-- Apply text assignments to the point list in order
(`_set_node_text(nodes_by_id[child_id], text)` during the walk). -/
def applyAssignments (ps : List Pt) (asn : List (String × String)) : List Pt :=
  asn.foldl
    (fun acc a =>
      acc.map (fun p => if p.modelId = a.1 then { p with text := some a.2 } else p))
    ps

/-- `_modify_template_data_hierarchy`: build the ordered children map
from the `parOf` connections, flatten the caller structure depth-first,
walk the seed hierarchy from the document node in lockstep with the
flattened labels, and set each visited node's text to the next
label. -/
def modifyTemplateDataHierarchy (g : DataModel) (h : List HNode) : DataModel :=
  let cm := hierChildren g
  let asn := walkChildren cm (cm (docIdOf g)) (flattenHs h)
  { g with ptLst := applyAssignments g.ptLst asn }

/-- `_add_smartart`: add the heading when a nonempty title is given,
extract the template parts (any failure aborts with the heading already
added), synthesize the data model (hierarchy when a nested structure is
supplied, flat otherwise), and inject the result. -/
def headedDoc (d : Doc) (title : Option String) : Doc :=
  match title with
  | some t => if t.isEmpty then d else { d with headings := d.headings ++ [t] }
  | none => d

def addSmartart (fresh : Nat → String) (fs : String → Option (Bundle DataModel)) (d : Doc)
    (name : String) (items : List String) (title : Option String)
    (hier : Option (List HNode)) : Doc × Option TemplateError :=
  let d1 : Doc := headedDoc d title
  match extractTemplateParts fs name with
  | .error e => (d1, some e)
  | .ok parts =>
    let dataXml :=
      match hier with
      | some h => modifyTemplateDataHierarchy parts.data h
      | none => modifyTemplateDataFlat fresh parts.data items
    injectSmartart fs d1 name dataXml

/-! ## Helper lemmas about the text-update pass -/

/-- The identity-relevant skeleton of a point: everything except its
text content. -/
def ptSkel (p : Pt) : String × Option String × Nat × Option String :=
  (p.modelId, p.ptType, p.payload, p.cxnAttr)

theorem setFlatTexts_skel (ps : List Pt) (items : List String) :
    (setFlatTexts ps items).map ptSkel = ps.map ptSkel := by
  induction ps generalizing items with
  | nil => rfl
  | cons p ps ih =>
    by_cases hp : p.ptType.isNone
    · cases items with
      | nil => simp [setFlatTexts, hp, ih, ptSkel, setNodeText]
      | cons t ts => simp [setFlatTexts, hp, ih, ptSkel, setNodeText]
    · simp [setFlatTexts, hp, ih]

theorem setFlatTexts_modelId (ps : List Pt) (items : List String) :
    (setFlatTexts ps items).map (fun p => p.modelId) = ps.map (fun p => p.modelId) := by
  have h := congrArg (List.map (fun q : String × Option String × Nat × Option String => q.1))
    (setFlatTexts_skel ps items)
  simpa [List.map_map, Function.comp, ptSkel] using h

theorem setFlatTexts_nonData (ps : List Pt) (items : List String) :
    (setFlatTexts ps items).filter (fun p => p.ptType.isSome)
      = ps.filter (fun p => p.ptType.isSome) := by
  induction ps generalizing items with
  | nil => rfl
  | cons p ps ih =>
    by_cases hp : p.ptType.isNone
    · have hps : p.ptType.isSome = false := by
        cases h : p.ptType <;> simp_all
      cases items with
      | nil => simp [setFlatTexts, hp, ih, setNodeText, hps]
      | cons t ts => simp [setFlatTexts, hp, ih, setNodeText, hps]
    · have hps : p.ptType.isSome = true := by
        cases h : p.ptType <;> simp_all
      simp [setFlatTexts, hp, ih, hps]

theorem setFlatTexts_dataFilter (ps : List Pt) (items : List String) :
    (setFlatTexts ps items).filter (fun p => p.ptType.isNone)
      = setFlatTexts (ps.filter (fun p => p.ptType.isNone)) items := by
  induction ps generalizing items with
  | nil => rfl
  | cons p ps ih =>
    by_cases hp : p.ptType.isNone
    · cases items with
      | nil => simp [setFlatTexts, hp, ih, setNodeText]
      | cons t ts => simp [setFlatTexts, hp, ih, setNodeText]
    · simp [setFlatTexts, hp, ih]

theorem setFlatTexts_of_no_data (ps : List Pt) (items : List String)
    (h : ∀ p ∈ ps, ¬ p.ptType.isNone = true) : setFlatTexts ps items = ps := by
  induction ps generalizing items with
  | nil => rfl
  | cons p ps ih =>
    have hp : ¬ p.ptType.isNone = true := h p (List.mem_cons_self p ps)
    simp only [setFlatTexts, hp]
    simp only [Bool.false_eq_true, if_false]
    exact congrArg (fun l => p :: l) (ih items (fun q hq => h q (List.mem_cons_of_mem p hq)))

theorem setFlatTexts_mem_nonData (ps : List Pt) (items : List String) (p : Pt)
    (hp : p ∈ ps) (h : ¬ p.ptType.isNone = true) : p ∈ setFlatTexts ps items := by
  induction ps generalizing items with
  | nil => cases hp
  | cons q ps ih =>
    rcases List.mem_cons.mp hp with rfl | hmem
    · simp [setFlatTexts, h]
    · by_cases hq : q.ptType.isNone
      · cases items with
        | nil => simp [setFlatTexts, hq]; exact Or.inr (ih [] hmem)
        | cons t ts => simp [setFlatTexts, hq]; exact Or.inr (ih ts hmem)
      · simp [setFlatTexts, hq]; exact Or.inr (ih items hmem)

/-! ## Concrete graphs and supplies used by witnesses and counterexamples -/

/-- A deterministic stand-in for the GUID supply of `_new_guid`. -/
def cexFresh : Nat → String := fun n => "NEW" ++ Nat.repr n

/-- A seed graph with a document point and no data nodes. -/
def emptySeedCex : DataModel :=
  { ptLst := [⟨"d", some "doc", none, 0, none⟩], cxnLst := [] }

/-- A seed graph with one data node carrying a presentation point. -/
def seedOneNode : DataModel :=
  { ptLst := [⟨"d", some "doc", none, 0, none⟩, ⟨"a", none, some "t", 1, none⟩,
              ⟨"p", some "pres", none, 2, none⟩],
    cxnLst := [⟨"c1", some "parOf", "d", "a", 0, 0, "", ""⟩,
               ⟨"c2", some "presOf", "a", "p", 0, 0, "", ""⟩] }

/-- A well-formed seed with two data nodes whose last node carries the
maximal ordering key. -/
def seedTwoNodes : DataModel :=
  { ptLst := [⟨"d", some "doc", none, 0, none⟩, ⟨"a", none, some "t", 1, none⟩,
              ⟨"b", none, some "u", 1, none⟩],
    cxnLst := [⟨"c1", some "parOf", "d", "a", 0, 0, "", ""⟩,
               ⟨"c2", some "parOf", "d", "b", 1, 0, "", ""⟩] }

/-- A seed graph whose removed data node's presentation point is itself
the source of a `PresentationParentOf` connection. -/
def seedPresParSrc : DataModel :=
  { ptLst := [⟨"d", some "doc", none, 0, none⟩, ⟨"a", none, some "t", 1, none⟩,
              ⟨"b", none, some "u", 1, none⟩, ⟨"p", some "pres", none, 2, none⟩,
              ⟨"q", some "pres", none, 2, none⟩],
    cxnLst := [⟨"c1", some "parOf", "d", "a", 0, 0, "", ""⟩,
               ⟨"c2", some "parOf", "d", "b", 1, 0, "", ""⟩,
               ⟨"c3", some "presOf", "b", "p", 0, 0, "", ""⟩,
               ⟨"c4", some "presParOf", "p", "q", 0, 0, "", ""⟩] }

/-! ## Claim C7 -/

/-- C7, counterexample: flat synthesis against a seed graph with zero
data nodes does not raise any error; it silently returns the seed
unchanged, producing a graph with 0 data nodes although 1 item was
requested. -/
theorem empty_seed_silent_cex :
    modifyTemplateDataFlat cexFresh emptySeedCex ["a"] = emptySeedCex ∧
    (dataNodes (modifyTemplateDataFlat cexFresh emptySeedCex ["a"])).length = 0 ∧
    (0 : Nat) ≠ ["a"].length := by
  refine ⟨by decide, by decide, by decide⟩

/-- C7 (amended): the source defines no `EmptyTopology` error; when the
seed graph contains zero data nodes, flat synthesis returns the graph
unchanged — silently producing fewer data nodes than the requested item
count instead of failing. -/
theorem empty_seed_no_error (fresh : Nat → String) (g : DataModel) (items : List String)
    (h : dataNodes g = []) : modifyTemplateDataFlat fresh g items = g := by
  have hps : ∀ p ∈ g.ptLst, ¬ p.ptType.isNone = true := by
    intro p hp
    have hfil := List.filter_eq_nil_iff.mp h
    exact fun hc => hfil p hp hc
  have hset : setFlatTexts g.ptLst items = g.ptLst := setFlatTexts_of_no_data g.ptLst items hps
  have h0 : (dataNodes g).length = 0 := by rw [h]; rfl
  unfold modifyTemplateDataFlat
  rw [hset]
  have hlast : (dataNodes g).getLast? = none := by rw [h]; rfl
  simp only [h0, Nat.not_lt_zero, if_false]
  by_cases hi : 0 < items.length
  · simp only [hi, if_true]
    unfold addExtraNodes
    rw [show dataNodes { ptLst := g.ptLst, cxnLst := g.cxnLst } = dataNodes g from rfl, hlast]
  · simp only [hi, if_false]

/-- C7, witness for the amended theorem. -/
theorem empty_seed_no_error_witness :
    dataNodes emptySeedCex = [] ∧
    modifyTemplateDataFlat cexFresh emptySeedCex ["a", "b"] = emptySeedCex :=
  ⟨by decide, empty_seed_no_error cexFresh emptySeedCex ["a", "b"] (by decide)⟩

/-! ## Claim C10 -/

/-- C10: when the requested item count equals the seed's data-node
count, flat synthesis changes only the text of data points: every
point's identifier, type tag, opaque style payload and `cxnId` are
unchanged, points that are not data nodes are entirely unchanged, and
the connection list is unchanged. -/
theorem flat_equal_count_frame (fresh : Nat → String) (g : DataModel) (items : List String)
    (h : items.length = (dataNodes g).length) :
    (modifyTemplateDataFlat fresh g items).cxnLst = g.cxnLst ∧
    (modifyTemplateDataFlat fresh g items).ptLst.map ptSkel = g.ptLst.map ptSkel ∧
    (modifyTemplateDataFlat fresh g items).ptLst.filter (fun p => p.ptType.isSome)
      = g.ptLst.filter (fun p => p.ptType.isSome) := by
  unfold modifyTemplateDataFlat
  have hnl : ¬ items.length < (dataNodes g).length := by omega
  have hng : ¬ (dataNodes g).length < items.length := by omega
  refine ⟨?_, ?_, ?_⟩ <;>
    simp only [hnl, hng, if_false, setFlatTexts_skel, setFlatTexts_nonData]

/-- C10, witness. -/
theorem flat_equal_count_frame_witness :
    ["x"].length = (dataNodes seedOneNode).length ∧
    (modifyTemplateDataFlat cexFresh seedOneNode ["x"]).cxnLst = seedOneNode.cxnLst ∧
    (modifyTemplateDataFlat cexFresh seedOneNode ["x"]).ptLst.map ptSkel
      = seedOneNode.ptLst.map ptSkel ∧
    (modifyTemplateDataFlat cexFresh seedOneNode ["x"]).ptLst.filter (fun p => p.ptType.isSome)
      = seedOneNode.ptLst.filter (fun p => p.ptType.isSome) :=
  ⟨by decide, flat_equal_count_frame cexFresh seedOneNode ["x"] (by decide)⟩

/-! ## Claim C4 -/

theorem foldl_max_bounds (l : List Int) (a : Int) :
    a ≤ l.foldl max a ∧ ∀ x ∈ l, x ≤ l.foldl max a := by
  induction l generalizing a with
  | nil => simp
  | cons y ys ih =>
    refine ⟨le_trans (le_max_left a y) (ih (max a y)).1, ?_⟩
    intro x hx
    rcases List.mem_cons.mp hx with rfl | hx
    · exact le_trans (le_max_right a x) (ih (max a x)).1
    · exact (ih (max a y)).2 x hx

/-- Cross-references of a document holding diagram-data parts at
indices 1, 3, 4. -/
def relsIdx134 : List Rel :=
  [⟨rtDgmData, "/word/diagrams/data1.xml"⟩,
   ⟨rtDgmData, "/word/diagrams/data3.xml"⟩,
   ⟨rtDgmData, "/word/diagrams/data4.xml"⟩]

/-- Cross-references after allocating index 5 and deleting index 3. -/
def relsIdx145 : List Rel :=
  [⟨rtDgmData, "/word/diagrams/data1.xml"⟩,
   ⟨rtDgmData, "/word/diagrams/data4.xml"⟩,
   ⟨rtDgmData, "/word/diagrams/data5.xml"⟩]

/-- C4: the allocated diagram index is strictly greater than every
diagram-data index parsed from the document's existing
cross-references (it equals the maximum plus one and never reuses a
freed lower slot); with existing indices {1, 3, 4} the next index is 5,
and with {1, 4, 5} — index 5 allocated, index 3 deleted — the next is
6. -/
theorem next_diagram_id_monotone :
    (∀ rels : List Rel, ∀ r ∈ rels, ∀ i : Int,
        parseDataIdx r.target = some i → i < nextDiagramId rels) ∧
    nextDiagramId relsIdx134 = 5 ∧ nextDiagramId relsIdx145 = 6 := by
  refine ⟨?_, by decide, by decide⟩
  intro rels r hr i hi
  unfold nextDiagramId
  have hmem : i ∈ rels.filterMap (fun r => parseDataIdx r.target) :=
    List.mem_filterMap.mpr ⟨r, hr, hi⟩
  cases hEx : rels.filterMap (fun r => parseDataIdx r.target) with
  | nil => rw [hEx] at hmem; cases hmem
  | cons x xs =>
    rw [hEx] at hmem
    simp only [hEx]
    rcases List.mem_cons.mp hmem with rfl | hmem2
    · have := (foldl_max_bounds xs i).1; omega
    · have := (foldl_max_bounds xs x).2 i hmem2; omega

/-- C4, witness: the strict-upper-bound part applied at a concrete
document. -/
theorem next_diagram_id_monotone_witness :
    parseDataIdx "/word/diagrams/data3.xml" = some 3 ∧ (3 : Int) < nextDiagramId relsIdx134 :=
  ⟨by decide,
   next_diagram_id_monotone.1 relsIdx134 ⟨rtDgmData, "/word/diagrams/data3.xml"⟩
     (by decide) 3 (by decide)⟩

/-! ## Claim C8 -/

/-- C8: for every repository state and topology name, template
extraction either fails with the file-not-found error when the bundle
is absent, fails with the error listing exactly the missing required
parts when at least one of the five is missing, or returns precisely
the five collected artifacts; it never returns a partial set. -/
theorem template_parts_all_or_error {α : Type} (fs : String → Option (Bundle α)) (name : String) :
    (fs name = none → extractTemplateParts fs name = .error (.notFound name)) ∧
    (∀ b, fs name = some b →
      (∀ d l st c w,
        (collectParts b.entries).dataPart = some d →
        (collectParts b.entries).layoutPart = some l →
        (collectParts b.entries).stylePart = some st →
        (collectParts b.entries).colorsPart = some c →
        (collectParts b.entries).drawingPart = some w →
        extractTemplateParts fs name = .ok ⟨d, l, st, c, w⟩) ∧
      (missingOf (collectParts b.entries) ≠ [] →
        extractTemplateParts fs name
          = .error (.missingParts (missingOf (collectParts b.entries)))) ∧
      (missingOf (collectParts b.entries) = [] ↔
        ((collectParts b.entries).dataPart.isSome ∧
         (collectParts b.entries).layoutPart.isSome ∧
         (collectParts b.entries).stylePart.isSome ∧
         (collectParts b.entries).colorsPart.isSome ∧
         (collectParts b.entries).drawingPart.isSome))) := by
  constructor
  · intro h
    unfold extractTemplateParts
    rw [h]
  · intro b hb
    refine ⟨?_, ?_, ?_⟩
    · intro d l st c w hd hl hs hc hw
      unfold extractTemplateParts
      rw [hb]
      simp only [hd, hl, hs, hc, hw]
    · intro hmiss
      unfold extractTemplateParts
      rw [hb]
      rcases hd : (collectParts b.entries).dataPart with _ | d <;>
      rcases hl : (collectParts b.entries).layoutPart with _ | l <;>
      rcases hs : (collectParts b.entries).stylePart with _ | st <;>
      rcases hc : (collectParts b.entries).colorsPart with _ | c <;>
      rcases hw : (collectParts b.entries).drawingPart with _ | w <;>
        simp_all [missingOf, requiredParts, getPartKey]
    · rcases hd : (collectParts b.entries).dataPart with _ | d <;>
      rcases hl : (collectParts b.entries).layoutPart with _ | l <;>
      rcases hs : (collectParts b.entries).stylePart with _ | st <;>
      rcases hc : (collectParts b.entries).colorsPart with _ | c <;>
      rcases hw : (collectParts b.entries).drawingPart with _ | w <;>
        simp_all [missingOf, requiredParts, getPartKey]

/-- A complete template bundle over opaque byte payloads. -/
def bundleComplete : Bundle Nat :=
  { entries := [("word/diagrams/data1.xml", 10), ("word/diagrams/layout1.xml", 11),
                ("word/diagrams/quickStyle1.xml", 12), ("word/diagrams/colors1.xml", 13),
                ("word/diagrams/drawing1.xml", 14), ("word/document.xml", 15)],
    relsManifest := none }

/-- An incomplete bundle missing the drawing artifact. -/
def bundleNoDrawing : Bundle Nat :=
  { entries := [("word/diagrams/data1.xml", 10), ("word/diagrams/layout1.xml", 11),
                ("word/diagrams/quickStyle1.xml", 12), ("word/diagrams/colors1.xml", 13)],
    relsManifest := none }

/-- A repository holding one complete and one incomplete bundle. -/
def fsMixed : String → Option (Bundle Nat) := fun n =>
  if n = "basic_list" then some bundleComplete
  else if n = "cycle" then some bundleNoDrawing
  else none

/-- C8, witness: the complete bundle yields all five artifacts, applied
through the theorem at a concrete repository. -/
theorem template_parts_all_or_error_witness :
    fsMixed "basic_list" = some bundleComplete ∧
    extractTemplateParts fsMixed "basic_list" = .ok ⟨10, 11, 12, 13, 14⟩ ∧
    extractTemplateParts fsMixed "cycle" = .error (.missingParts ["drawing"]) ∧
    extractTemplateParts fsMixed "pyramid" = .error (.notFound "pyramid") :=
  ⟨by decide,
   ((template_parts_all_or_error fsMixed "basic_list").2 bundleComplete (by decide)).1
     10 11 12 13 14 (by decide) (by decide) (by decide) (by decide) (by decide),
   by
     have h := ((template_parts_all_or_error fsMixed "cycle").2 bundleNoDrawing (by decide)).2.1
       (by decide)
     rw [h]
     rfl,
   (template_parts_all_or_error fsMixed "pyramid").1 (by decide)⟩

/-! ## Claim C5 -/

theorem injectSmartart_rels (fs : String → Option (Bundle DataModel)) (d : Doc) (name : String)
    (x : DataModel) (p : TParts DataModel) (rt : RelTypes)
    (hp : extractTemplateParts fs name = .ok p)
    (hr : extractRelsFromTemplate fs name = .ok rt) :
    (injectSmartart fs d name x).2 = none ∧
    ((injectSmartart fs d name x).1.rels.drop d.rels.length).map (fun r => r.reltype)
      = [rt.dataType.getD rtDgmData, rt.layoutType.getD rtDgmLayout,
         rt.styleType.getD rtDgmStyle, rt.colorsType.getD rtDgmColors,
         rt.drawingType.getD rtDgmDrawing] := by
  unfold injectSmartart
  rw [hp, hr]
  refine ⟨rfl, ?_⟩
  have hd1 : ({ d with compatSettings := setCompat15 d.compatSettings } : Doc).rels = d.rels := rfl
  simp only [hd1]
  rw [show d.rels.length = (d.rels).length from rfl, List.drop_left]
  rfl

/-- The six supported topology names. -/
def topologyNames : List String :=
  ["basic_list", "basic_process", "hierarchy", "cycle", "pyramid", "radial"]

/-- A minimal seed data model used as the data payload of the modelled
bundles. -/
def specSeedData : DataModel :=
  { ptLst := [⟨"d", some "doc", none, 0, none⟩, ⟨"a", none, some "Item 1", 1, none⟩,
              ⟨"p", some "pres", none, 2, none⟩],
    cxnLst := [⟨"c1", some "parOf", "d", "a", 0, 0, "", ""⟩,
               ⟨"c2", some "presOf", "a", "p", 0, 0, "", ""⟩] }

/-- Modelled from the spec: the on-disk template bundles produced by
the offline oracle are not part of the source tree.  Per the spec's
repository contract, each topology bundle carries the five diagram
artifacts and a relationship manifest whose data and layout
cross-reference types use the open namespace while the style, colors
and drawing types use the vendor namespace. -/
def specManifest : List (String × String) :=
  [(rtDgmData, "diagrams/data1.xml"),
   (rtDgmLayout, "diagrams/layout1.xml"),
   (rtDgmStyle, "diagrams/quickStyle1.xml"),
   (rtDgmColors, "diagrams/colors1.xml"),
   (rtDgmDrawing, "diagrams/drawing1.xml")]

/-- Modelled from the spec: one complete bundle per supported topology,
with the manifest above. -/
def specBundle : Bundle DataModel :=
  { entries := [("word/diagrams/data1.xml", specSeedData),
                ("word/diagrams/layout1.xml", ⟨[], []⟩),
                ("word/diagrams/quickStyle1.xml", ⟨[], []⟩),
                ("word/diagrams/colors1.xml", ⟨[], []⟩),
                ("word/diagrams/drawing1.xml", ⟨[], []⟩)],
    relsManifest := some specManifest }

/-- Modelled from the spec: the template repository holding one bundle
per supported topology. -/
def specTemplateRepo : String → Option (Bundle DataModel) := fun n =>
  if topologyNames.contains n then some specBundle else none

/-- C5: whenever relationship extraction classified all five
cross-reference kinds from a seed bundle's manifest, the Injector
registers exactly those five extracted strings, in order — never the
hard-coded fallbacks; and for each of the six supported topologies
(with the bundles modelled from the spec) all five kinds, including the
three vendor-namespace ones, are indeed extracted from the manifest, so
the registered strings are the seed's verbatim. -/
theorem inject_namespace_fidelity :
    (∀ (fs : String → Option (Bundle DataModel)) (d : Doc) (name : String) (x : DataModel)
        (p : TParts DataModel) (rt : RelTypes) (t1 t2 t3 t4 t5 : String),
        extractTemplateParts fs name = .ok p →
        extractRelsFromTemplate fs name = .ok rt →
        rt.dataType = some t1 → rt.layoutType = some t2 → rt.styleType = some t3 →
        rt.colorsType = some t4 → rt.drawingType = some t5 →
        ((injectSmartart fs d name x).1.rels.drop d.rels.length).map (fun r => r.reltype)
          = [t1, t2, t3, t4, t5] ∧ (injectSmartart fs d name x).2 = none) ∧
    (∀ name ∈ topologyNames,
        extractRelsFromTemplate specTemplateRepo name = .ok (extractRelTypes specManifest) ∧
        (extractRelTypes specManifest).dataType = some rtDgmData ∧
        (extractRelTypes specManifest).layoutType = some rtDgmLayout ∧
        (extractRelTypes specManifest).styleType = some rtDgmStyle ∧
        (extractRelTypes specManifest).colorsType = some rtDgmColors ∧
        (extractRelTypes specManifest).drawingType = some rtDgmDrawing ∧
        rtDgmStyle ∈ specManifest.map Prod.fst ∧
        rtDgmColors ∈ specManifest.map Prod.fst ∧
        rtDgmDrawing ∈ specManifest.map Prod.fst) := by
  constructor
  · intro fs d name x p rt t1 t2 t3 t4 t5 hp hr h1 h2 h3 h4 h5
    have h := injectSmartart_rels fs d name x p rt hp hr
    refine ⟨?_, h.1⟩
    rw [h.2, h1, h2, h3, h4, h5]
    rfl
  · intro name hname
    have hb : specTemplateRepo name = some specBundle := by
      unfold specTemplateRepo
      rw [if_pos (List.elem_iff.mpr hname)]
    refine ⟨?_, by decide, by decide, by decide, by decide, by decide,
            by decide, by decide, by decide⟩
    unfold extractRelsFromTemplate
    rw [hb]
    rfl

/-- C5, witness: the general fidelity statement applied at the modelled
"basic_list" bundle. -/
theorem inject_namespace_fidelity_witness :
    ((injectSmartart specTemplateRepo ⟨[], [], [], []⟩ "basic_list" specSeedData).1.rels.drop
        0).map (fun r => r.reltype)
      = [rtDgmData, rtDgmLayout, rtDgmStyle, rtDgmColors, rtDgmDrawing] ∧
    (injectSmartart specTemplateRepo ⟨[], [], [], []⟩ "basic_list" specSeedData).2 = none :=
  inject_namespace_fidelity.1 specTemplateRepo ⟨[], [], [], []⟩ "basic_list" specSeedData
    ⟨specSeedData, ⟨[], []⟩, ⟨[], []⟩, ⟨[], []⟩, ⟨[], []⟩⟩ (extractRelTypes specManifest)
    rtDgmData rtDgmLayout rtDgmStyle rtDgmColors rtDgmDrawing
    (by rfl) (by rfl) (by decide) (by decide) (by decide) (by decide) (by decide)

/-! ## Claim C3 -/

theorem injectSmartart_failure (fs : String → Option (Bundle DataModel)) (d : Doc)
    (name : String) (x : DataModel) (e : TemplateError)
    (h : (injectSmartart fs d name x).2 = some e) :
    (injectSmartart fs d name x).1
      = { d with compatSettings := setCompat15 d.compatSettings } := by
  unfold injectSmartart at h ⊢
  cases hx : extractTemplateParts fs name with
  | error e0 => rfl
  | ok p =>
    cases hr : extractRelsFromTemplate fs name with
    | error e1 => rfl
    | ok rt =>
      rw [hx, hr] at h
      dsimp only at h
      exact Option.noConfusion h

/-- An empty target document. -/
def emptyDoc : Doc := { headings := [], compatSettings := [], rels := [], body := [] }

/-- A repository with no bundles at all. -/
def fsNone : String → Option (Bundle DataModel) := fun _ => none

/-- C3, counterexample: with the template bundle absent and a title
supplied, injection reports the error but the target document is not
left unchanged — the heading has already been added before template
extraction is attempted. -/
theorem inject_failure_mutates_doc_cex :
    (addSmartart cexFresh fsNone emptyDoc "basic_list" ["a"] (some "T") none).2
      = some (.notFound "basic_list") ∧
    (addSmartart cexFresh fsNone emptyDoc "basic_list" ["a"] (some "T") none).1 ≠ emptyDoc ∧
    (addSmartart cexFresh fsNone emptyDoc "basic_list" ["a"] (some "T") none).1.headings
      = ["T"] := by
  refine ⟨by decide, by decide, by decide⟩

/-- C3 (amended): when any step of injecting one diagram fails, the
first error encountered is reported to the caller and no
cross-reference and no body reference object is left behind, but the
document is not left completely unchanged: the heading (when a nonempty
title was supplied) has already been added, and if the failure occurs
inside the injection stage the compatibility setting has already been
upgraded. -/
theorem inject_failure_partial_state (fresh : Nat → String)
    (fs : String → Option (Bundle DataModel)) (d : Doc) (name : String)
    (items : List String) (title : Option String) (hier : Option (List HNode))
    (e : TemplateError)
    (h : (addSmartart fresh fs d name items title hier).2 = some e) :
    (addSmartart fresh fs d name items title hier).1.rels = d.rels ∧
    (addSmartart fresh fs d name items title hier).1.body = d.body ∧
    (addSmartart fresh fs d name items title hier).1.headings = (headedDoc d title).headings ∧
    ((addSmartart fresh fs d name items title hier).1.compatSettings = d.compatSettings ∨
      (addSmartart fresh fs d name items title hier).1.compatSettings
        = setCompat15 d.compatSettings) ∧
    (∀ e0, extractTemplateParts fs name = .error e0 → e = e0) := by
  have hrels : (headedDoc d title).rels = d.rels := by
    unfold headedDoc; cases title with
    | none => rfl
    | some t => by_cases ht : t.isEmpty <;> simp [ht]
  have hbody : (headedDoc d title).body = d.body := by
    unfold headedDoc; cases title with
    | none => rfl
    | some t => by_cases ht : t.isEmpty <;> simp [ht]
  have hcompat : (headedDoc d title).compatSettings = d.compatSettings := by
    unfold headedDoc; cases title with
    | none => rfl
    | some t => by_cases ht : t.isEmpty <;> simp [ht]
  unfold addSmartart at h ⊢
  cases hx : extractTemplateParts fs name with
  | error e0 =>
    rw [hx] at h
    dsimp only at h ⊢
    have he : e = e0 := (Option.some.inj h).symm
    refine ⟨hrels, hbody, rfl, Or.inl hcompat, ?_⟩
    intro e1 he1
    rw [he, Except.error.inj he1]
  | ok parts =>
    rw [hx] at h
    dsimp only at h ⊢
    have h1 := injectSmartart_failure fs (headedDoc d title) name _ e h
    rw [h1]
    refine ⟨hrels, hbody, rfl, Or.inr (by rw [hcompat]), ?_⟩
    intro e0 he0
    exact Except.noConfusion he0

/-- C3, witness for the amended theorem: a repository whose bundle
lacks the relationship manifest fails inside the injection stage,
leaving heading and compatibility flag set but no relationships and no
reference object. -/
theorem inject_failure_partial_state_witness :
    (addSmartart cexFresh fsNone emptyDoc "basic_list" ["a"] (some "T") none).2
      = some (.notFound "basic_list") ∧
    (addSmartart cexFresh fsNone emptyDoc "basic_list" ["a"] (some "T") none).1.rels = [] ∧
    (addSmartart cexFresh fsNone emptyDoc "basic_list" ["a"] (some "T") none).1.body = [] :=
  ⟨by decide,
   (inject_failure_partial_state cexFresh fsNone emptyDoc "basic_list" ["a"] (some "T") none
     (.notFound "basic_list") (by decide)).1,
   (inject_failure_partial_state cexFresh fsNone emptyDoc "basic_list" ["a"] (some "T") none
     (.notFound "basic_list") (by decide)).2.1⟩

/-! ## Claim C9 -/

/-- The `parOf` connections whose source is `src`: the sibling edges of
one parent's children. -/
def parOfChildren (g : DataModel) (src : String) : List Cxn :=
  g.cxnLst.filter (fun c => c.cxnType == some "parOf" && c.srcId == src)

theorem setFlatTexts_find_doc (ps : List Pt) (items : List String) :
    ((setFlatTexts ps items).find? (fun p => p.ptType == some "doc")).map (fun p => p.modelId)
      = (ps.find? (fun p => p.ptType == some "doc")).map (fun p => p.modelId) := by
  induction ps generalizing items with
  | nil => rfl
  | cons p ps ih =>
    by_cases hp : p.ptType.isNone
    · have hnd : (p.ptType == some "doc") = false := by
        cases h : p.ptType <;> simp_all
      cases items with
      | nil => simp [setFlatTexts, hp, List.find?, setNodeText, hnd, ih]
      | cons t ts => simp [setFlatTexts, hp, List.find?, setNodeText, hnd, ih]
    · cases hd : (p.ptType == some "doc") with
      | true => simp [setFlatTexts, hp, List.find?, hd]
      | false => simp [setFlatTexts, hp, List.find?, hd, ih]

theorem docIdOf_setFlat (g : DataModel) (items : List String) :
    docIdOf { ptLst := setFlatTexts g.ptLst items, cxnLst := g.cxnLst } = docIdOf g := by
  unfold docIdOf
  rw [setFlatTexts_find_doc]

theorem dataNodes_setFlat (g : DataModel) (items : List String) :
    dataNodes { ptLst := setFlatTexts g.ptLst items, cxnLst := g.cxnLst }
      = setFlatTexts (dataNodes g) items := by
  unfold dataNodes
  exact setFlatTexts_dataFilter g.ptLst items

theorem addExtraNodes_parts (fresh : Nat → String) (g : DataModel) (extra : List String)
    (lastNode : Pt) (h : (dataNodes g).getLast? = some lastNode) :
    (addExtraNodes fresh g extra).ptLst
      = g.ptLst ++ (extra.enum.map (fun it => newPtsFor fresh lastNode it.1 it.2)).flatten ∧
    (addExtraNodes fresh g extra).cxnLst
      = g.cxnLst ++ (List.range extra.length).map
          (newCxnFor fresh (docIdOf g) (lastOrdOf g lastNode.modelId)) := by
  unfold addExtraNodes
  rw [h]
  refine ⟨rfl, ?_⟩
  have : (List.range extra.length).map
      (newCxnFor fresh (docIdOf g) (lastOrdOf g lastNode.modelId))
      = extra.enum.map (fun it => newCxnFor fresh (docIdOf g)
          (lastOrdOf g lastNode.modelId) it.1) := by
    rw [← List.enum_map_fst extra, List.map_map]
    rfl
  rw [this]

/-- A seed whose last data node (in point order) does not carry the
maximal ordering key among the document's children. -/
def seedOrdCex : DataModel :=
  { ptLst := [⟨"d", some "doc", none, 0, none⟩, ⟨"a", none, some "t", 1, none⟩,
              ⟨"b", none, some "u", 1, none⟩],
    cxnLst := [⟨"c1", some "parOf", "d", "a", 1, 0, "", ""⟩,
               ⟨"c2", some "parOf", "d", "b", 0, 0, "", ""⟩] }

/-- C9, counterexample: appending an extra node to `seedOrdCex` gives
the new `parOf` connection ordering key (last node's key) + 1 = 1,
which collides with an existing sibling's key — the key is not max+1
among the existing siblings and two children of the document share an
ordering key. -/
theorem append_ordering_key_cex :
    ∃ c1 ∈ (modifyTemplateDataFlat cexFresh seedOrdCex ["x", "y", "z"]).cxnLst,
      ∃ c2 ∈ (modifyTemplateDataFlat cexFresh seedOrdCex ["x", "y", "z"]).cxnLst,
        c1 ≠ c2 ∧ c1.cxnType = some "parOf" ∧ c2.cxnType = some "parOf" ∧
        c1.srcId = docIdOf seedOrdCex ∧ c2.srcId = docIdOf seedOrdCex ∧
        c1.srcOrd = c2.srcOrd := by decide

/-- C9 (amended): the i-th appended node's `ParentOf` connection
receives ordering key `last_ord + i + 1`, where `last_ord` is the key
of the `parOf` connection targeting the seed's **last data node in
point order** (not the maximum among siblings); successive appends
receive successive keys, and provided the last data node's key is in
fact maximal among the document's children and the seed's keys are
pairwise distinct, no two children of the document node share an
ordering key afterwards. -/
theorem append_ordering_keys (fresh : Nat → String) (g : DataModel) (items : List String)
    (lastNode : Pt) (hlast : (dataNodes g).getLast? = some lastNode)
    (hgrow : (dataNodes g).length < items.length)
    (hmax : ∀ c ∈ g.cxnLst, c.cxnType = some "parOf" → c.srcId = docIdOf g →
        c.srcOrd ≤ lastOrdOf g lastNode.modelId)
    (hnodup : ((parOfChildren g (docIdOf g)).map (fun c => c.srcOrd)).Nodup) :
    ((parOfChildren (modifyTemplateDataFlat fresh g items) (docIdOf g)).map
        (fun c => c.srcOrd)).Nodup ∧
    (∀ i < items.length - (dataNodes g).length,
        newCxnFor fresh (docIdOf g) (lastOrdOf g lastNode.modelId) i
          ∈ (modifyTemplateDataFlat fresh g items).cxnLst ∧
        (newCxnFor fresh (docIdOf g) (lastOrdOf g lastNode.modelId) i).srcOrd
          = lastOrdOf g lastNode.modelId + i + 1) := by
  have hnl : ¬ items.length < (dataNodes g).length := by omega
  unfold modifyTemplateDataFlat
  simp only [hnl, if_false, hgrow, if_true]
  set g1 : DataModel := { ptLst := setFlatTexts g.ptLst items, cxnLst := g.cxnLst } with hg1
  -- the last data node of the text-updated graph has the same id
  have hmap : (dataNodes g1).map (fun p => p.modelId) = (dataNodes g).map (fun p => p.modelId) := by
    rw [hg1, dataNodes_setFlat]
    have h := congrArg (List.map (fun q : String × Option String × Nat × Option String => q.1))
      (setFlatTexts_skel (dataNodes g) items)
    simpa [List.map_map, Function.comp, ptSkel] using h
  have hlast1 : ∃ lastNode1, (dataNodes g1).getLast? = some lastNode1 ∧
      lastNode1.modelId = lastNode.modelId := by
    have h1 : ((dataNodes g1).map (fun p => p.modelId)).getLast?
        = some lastNode.modelId := by
      rw [hmap, List.getLast?_map, hlast]; rfl
    rw [List.getLast?_map] at h1
    cases hh : (dataNodes g1).getLast? with
    | none => rw [hh] at h1; cases h1
    | some q => rw [hh] at h1; exact ⟨q, rfl, Option.some.inj h1⟩
  obtain ⟨lastNode1, hlast1, hid1⟩ := hlast1
  have hdoc1 : docIdOf g1 = docIdOf g := docIdOf_setFlat g items
  have hcxn1 : g1.cxnLst = g.cxnLst := rfl
  have hord1 : lastOrdOf g1 lastNode1.modelId = lastOrdOf g lastNode.modelId := by
    unfold lastOrdOf
    rw [hcxn1, hid1]
  have hparts := addExtraNodes_parts fresh g1 (items.drop (dataNodes g).length) lastNode1 hlast1
  unfold parOfChildren
  rw [hparts.2, hdoc1, hord1, hcxn1]
  constructor
  · rw [List.filter_append]
    have hall : ∀ c ∈ (List.range (items.drop (dataNodes g).length).length).map
        (newCxnFor fresh (docIdOf g) (lastOrdOf g lastNode.modelId)),
        (c.cxnType == some "parOf" && c.srcId == docIdOf g) = true := by
      intro c hc
      rcases List.mem_map.mp hc with ⟨i, _, rfl⟩
      simp [newCxnFor]
    rw [List.filter_eq_self.mpr hall, List.map_append, List.nodup_append]
    refine ⟨hnodup, ?_, ?_⟩
    · rw [List.map_map]
      have : ((fun c => c.srcOrd) ∘ newCxnFor fresh (docIdOf g)
          (lastOrdOf g lastNode.modelId))
          = fun i : Nat => lastOrdOf g lastNode.modelId + (i : Int) + 1 := rfl
      rw [this]
      refine List.Nodup.map ?_ (List.nodup_range _)
      intro i j hij
      dsimp only at hij
      omega
    · intro x hx hx2
      rcases List.mem_map.mp hx with ⟨c, hc, rfl⟩
      have hc1 := (List.mem_filter.mp hc).1
      have hc2 := (List.mem_filter.mp hc).2
      simp only [Bool.and_eq_true, beq_iff_eq] at hc2
      have hle := hmax c hc1 hc2.1 hc2.2
      rw [List.map_map] at hx2
      rcases List.mem_map.mp hx2 with ⟨i, _, hEq⟩
      have : c.srcOrd = lastOrdOf g lastNode.modelId + i + 1 := hEq.symm
      omega
  · intro i hi
    refine ⟨?_, rfl⟩
    apply List.mem_append_right
    refine List.mem_map.mpr ⟨i, ?_, rfl⟩
    rw [List.mem_range, List.length_drop]
    omega

/-- C9, witness: a well-ordered two-node seed grown to four items; the
theorem applies and the appended keys 2 and 3 extend the seed keys
{0, 1} without collision. -/
theorem append_ordering_keys_witness :
    ((parOfChildren (modifyTemplateDataFlat cexFresh seedTwoNodes ["w", "x", "y", "z"])
        (docIdOf seedTwoNodes)).map (fun c => c.srcOrd)).Nodup ∧
    (∀ i < (4 : Nat) - (dataNodes seedTwoNodes).length,
        newCxnFor cexFresh (docIdOf seedTwoNodes)
            (lastOrdOf seedTwoNodes "b") i
          ∈ (modifyTemplateDataFlat cexFresh seedTwoNodes ["w", "x", "y", "z"]).cxnLst ∧
        (newCxnFor cexFresh (docIdOf seedTwoNodes) (lastOrdOf seedTwoNodes "b") i).srcOrd
          = lastOrdOf seedTwoNodes "b" + i + 1) :=
  append_ordering_keys cexFresh seedTwoNodes ["w", "x", "y", "z"]
    ⟨"b", none, some "u", 1, none⟩ (by decide) (by decide) (by decide) (by decide)

/-! ## Claim C2 -/

theorem presScan_cons_presOf (allR : List String) (c : Cxn) (cs : List Cxn) (pres : List String)
    (h : (c.cxnType == some "presOf" && allR.contains c.srcId) = true) :
    presScan allR (c :: cs) pres
      = ((c, true) :: (presScan allR cs (pres ++ [c.destId])).1,
         (presScan allR cs (pres ++ [c.destId])).2) := by
  conv_lhs => rw [presScan.eq_def]
  dsimp only
  rw [if_pos h]

theorem presScan_cons_presPar (allR : List String) (c : Cxn) (cs : List Cxn) (pres : List String)
    (h1 : ¬ (c.cxnType == some "presOf" && allR.contains c.srcId) = true)
    (h2 : (c.cxnType == some "presParOf" && pres.contains c.destId) = true) :
    presScan allR (c :: cs) pres
      = ((c, true) :: (presScan allR cs pres).1, (presScan allR cs pres).2) := by
  conv_lhs => rw [presScan.eq_def]
  dsimp only
  rw [if_neg h1, if_pos h2]

theorem presScan_cons_other (allR : List String) (c : Cxn) (cs : List Cxn) (pres : List String)
    (h1 : ¬ (c.cxnType == some "presOf" && allR.contains c.srcId) = true)
    (h2 : ¬ (c.cxnType == some "presParOf" && pres.contains c.destId) = true) :
    presScan allR (c :: cs) pres
      = ((c, false) :: (presScan allR cs pres).1, (presScan allR cs pres).2) := by
  conv_lhs => rw [presScan.eq_def]
  dsimp only
  rw [if_neg h1, if_neg h2]

theorem presScan_fst_mem (allR : List String) (cs : List Cxn) :
    ∀ (pres : List String), ∀ cb ∈ (presScan allR cs pres).1, cb.1 ∈ cs := by
  induction cs with
  | nil => intro pres cb hcb; cases hcb
  | cons c cs ih =>
    intro pres cb hcb
    by_cases h1 : (c.cxnType == some "presOf" && allR.contains c.srcId) = true
    · rw [presScan_cons_presOf allR c cs pres h1] at hcb
      rcases List.mem_cons.mp hcb with heq | hmem
      · rw [heq]; exact List.mem_cons_self _ _
      · exact List.mem_cons_of_mem _ (ih _ cb hmem)
    · by_cases h2 : (c.cxnType == some "presParOf" && pres.contains c.destId) = true
      · rw [presScan_cons_presPar allR c cs pres h1 h2] at hcb
        rcases List.mem_cons.mp hcb with heq | hmem
        · rw [heq]; exact List.mem_cons_self _ _
        · exact List.mem_cons_of_mem _ (ih _ cb hmem)
      · rw [presScan_cons_other allR c cs pres h1 h2] at hcb
        rcases List.mem_cons.mp hcb with heq | hmem
        · rw [heq]; exact List.mem_cons_self _ _
        · exact List.mem_cons_of_mem _ (ih _ cb hmem)

theorem presScan_false_char (allR : List String) (cs : List Cxn) :
    ∀ (pres : List String), ∀ cb ∈ (presScan allR cs pres).1, cb.2 = false →
      ¬(cb.1.cxnType = some "presOf" ∧ cb.1.srcId ∈ allR) := by
  induction cs with
  | nil => intro pres cb hcb; cases hcb
  | cons c cs ih =>
    intro pres cb hcb hfalse
    by_cases h1 : (c.cxnType == some "presOf" && allR.contains c.srcId) = true
    · rw [presScan_cons_presOf allR c cs pres h1] at hcb
      rcases List.mem_cons.mp hcb with heq | hmem
      · rw [heq] at hfalse; cases hfalse
      · exact ih _ cb hmem hfalse
    · by_cases h2 : (c.cxnType == some "presParOf" && pres.contains c.destId) = true
      · rw [presScan_cons_presPar allR c cs pres h1 h2] at hcb
        rcases List.mem_cons.mp hcb with heq | hmem
        · rw [heq] at hfalse; cases hfalse
        · exact ih _ cb hmem hfalse
      · rw [presScan_cons_other allR c cs pres h1 h2] at hcb
        rcases List.mem_cons.mp hcb with heq | hmem
        · rintro ⟨hty, hsrc⟩
          rw [heq] at hty hsrc
          dsimp only at hty hsrc
          apply h1
          simp only [hty, beq_self_eq_true, Bool.true_and]
          exact List.elem_iff.mpr hsrc
        · exact ih _ cb hmem hfalse

theorem presScan_pres_char (allR : List String) (cs : List Cxn) :
    ∀ (pres : List String), ∀ x ∈ (presScan allR cs pres).2,
      x ∈ pres ∨ ∃ c' ∈ cs, c'.cxnType = some "presOf" ∧ c'.srcId ∈ allR ∧ c'.destId = x := by
  induction cs with
  | nil =>
    intro pres x hx
    exact Or.inl hx
  | cons c cs ih =>
    intro pres x hx
    by_cases h1 : (c.cxnType == some "presOf" && allR.contains c.srcId) = true
    · rw [presScan_cons_presOf allR c cs pres h1] at hx
      rcases ih (pres ++ [c.destId]) x hx with hmem | ⟨c', hc', hrest⟩
      · rcases List.mem_append.mp hmem with hp | hx1
        · exact Or.inl hp
        · right
          have h1s := h1
          simp only [Bool.and_eq_true, beq_iff_eq] at h1s
          refine ⟨c, List.mem_cons_self _ _, h1s.1, List.elem_iff.mp h1s.2, ?_⟩
          exact (List.mem_singleton.mp hx1).symm
      · exact Or.inr ⟨c', List.mem_cons_of_mem _ hc', hrest⟩
    · by_cases h2 : (c.cxnType == some "presParOf" && pres.contains c.destId) = true
      · rw [presScan_cons_presPar allR c cs pres h1 h2] at hx
        rcases ih pres x hx with hp | ⟨c', hc', hrest⟩
        · exact Or.inl hp
        · exact Or.inr ⟨c', List.mem_cons_of_mem _ hc', hrest⟩
      · rw [presScan_cons_other allR c cs pres h1 h2] at hx
        rcases ih pres x hx with hp | ⟨c', hc', hrest⟩
        · exact Or.inl hp
        · exact Or.inr ⟨c', List.mem_cons_of_mem _ hc', hrest⟩

theorem removeExcess_no_dangling (g : DataModel) (k : Nat)
    (hclean : danglingEndpoints g = [])
    (W1 : ∀ c ∈ g.cxnLst, c.destId ∉ removedTransIds g k ∧
        (c.srcId ∈ removedTransIds g k → c.cxnType = some "presOf"))
    (W2 : ∀ c ∈ g.cxnLst, c.srcId ∉ removedPresIds g k ∧
        (c.destId ∈ removedPresIds g k →
          c.cxnType = some "presOf" ∨ c.cxnType = some "presParOf"))
    (W3 : ∀ cb ∈ (removalScan g k).1,
        cb.1.cxnType = some "presParOf" → cb.1.destId ∈ removedPresIds g k → cb.2 = true)
    (W4 : ∀ c1 ∈ g.cxnLst, ∀ c2 ∈ g.cxnLst,
        c1.cxnType = some "presOf" → c2.cxnType = some "presOf" →
        c1.destId = c2.destId → c1.srcId = c2.srcId) :
    danglingEndpoints (removeExcessNodes g k) = [] := by
  -- initial cleanliness, in membership form
  have hgclean : ∀ c' ∈ g.cxnLst,
      c'.srcId ∈ g.ptLst.map (fun p => p.modelId) ∧
      c'.destId ∈ g.ptLst.map (fun p => p.modelId) := by
    intro c' hcg
    have h := List.filter_eq_nil_iff.mp hclean c' hcg
    simp only [Bool.or_eq_true, Bool.not_eq_true'] at h
    push_neg at h
    exact ⟨List.elem_iff.mp (Bool.ne_false_iff.mp h.1),
           List.elem_iff.mp (Bool.ne_false_iff.mp h.2)⟩
  unfold danglingEndpoints
  rw [List.filter_eq_nil_iff]
  intro c hc
  -- unpack the membership of c in the kept connections
  have hres : (removeExcessNodes g k).cxnLst
      = ((removalScan g k).1.filter
          (fun cb => !(touchesRemoved (removedDataIds g k) cb.1 || cb.2))).map
        (fun cb => cb.1) := rfl
  rw [hres] at hc
  rcases List.mem_map.mp hc with ⟨cb, hcbf, rfl⟩
  have hcb := (List.mem_filter.mp hcbf).1
  have hpred := (List.mem_filter.mp hcbf).2
  simp only [Bool.not_eq_true', Bool.or_eq_false_iff] at hpred
  have htouch : touchesRemoved (removedDataIds g k) cb.1 = false := hpred.1
  have hflag : cb.2 = false := hpred.2
  have hcg : cb.1 ∈ g.cxnLst := presScan_fst_mem _ g.cxnLst [] cb hcb
  -- endpoints are not among the dropped data ids
  have hD : cb.1.destId ∉ removedDataIds g k ∧ cb.1.srcId ∉ removedDataIds g k := by
    unfold touchesRemoved at htouch
    simp only [Bool.or_eq_false_iff] at htouch
    constructor
    · intro hmem
      exact Bool.noConfusion ((htouch.1).symm.trans (List.elem_iff.mpr hmem))
    · intro hmem
      exact Bool.noConfusion ((htouch.2).symm.trans (List.elem_iff.mpr hmem))
  -- the flag is false, so the presOf pattern did not fire on this connection
  have hnofire : ¬(cb.1.cxnType = some "presOf" ∧
      cb.1.srcId ∈ removedDataIds g k ++ removedTransIds g k) :=
    presScan_false_char _ g.cxnLst [] cb hcb hflag
  -- source not among the trans ids
  have hsrcT : cb.1.srcId ∉ removedTransIds g k := by
    intro hmem
    have hty := (W1 cb.1 hcg).2 hmem
    exact hnofire ⟨hty, List.mem_append_right _ hmem⟩
  -- source not among the pres ids
  have hsrcP : cb.1.srcId ∉ removedPresIds g k := (W2 cb.1 hcg).1
  -- destination not among the trans ids
  have hdestT : cb.1.destId ∉ removedTransIds g k := (W1 cb.1 hcg).1
  -- destination not among the pres ids
  have hdestP : cb.1.destId ∉ removedPresIds g k := by
    intro hmem
    rcases (W2 cb.1 hcg).2 hmem with hty | hty
    · rcases presScan_pres_char _ g.cxnLst [] cb.1.destId hmem with hfalse | ⟨c', hc', hty', hsrc', hdest'⟩
      · cases hfalse
      · have hsame := W4 cb.1 hcg c' hc' hty hty' hdest'.symm
        exact hnofire ⟨hty, hsame ▸ hsrc'⟩
    · have := W3 cb hcb hty hmem
      rw [hflag] at this
      cases this
  -- both endpoints survive among the remaining points
  have hsurv : ∀ x : String, x ∈ g.ptLst.map (fun p => p.modelId) →
      x ∉ removedDataIds g k → x ∉ removedTransIds g k → x ∉ removedPresIds g k →
      ((removeExcessNodes g k).ptLst.map (fun p => p.modelId)).contains x = true := by
    intro x hx hxD hxT hxP
    rcases List.mem_map.mp hx with ⟨p, hp, rfl⟩
    have hkeep : ((removedDataIds g k ++ removedTransIds g k
          ++ removedPresIds g k).contains p.modelId) = false := by
      cases hb : (removedDataIds g k ++ removedTransIds g k
          ++ removedPresIds g k).contains p.modelId
      · rfl
      · rcases List.mem_append.mp (List.elem_iff.mp hb) with hab | hPm
        · rcases List.mem_append.mp hab with hDm | hTm
          · exact absurd hDm hxD
          · exact absurd hTm hxT
        · exact absurd hPm hxP
    apply List.elem_iff.mpr
    refine List.mem_map.mpr ⟨p, ?_, rfl⟩
    have hresp : (removeExcessNodes g k).ptLst
        = g.ptLst.filter (fun p => !((removedDataIds g k ++ removedTransIds g k
            ++ removedPresIds g k).contains p.modelId)) := rfl
    rw [hresp]
    exact List.mem_filter.mpr ⟨hp, by rw [hkeep]; rfl⟩
  have hsrcMem := (hgclean cb.1 hcg).1
  have hdestMem := (hgclean cb.1 hcg).2
  have hsrcSurv := hsurv cb.1.srcId hsrcMem hD.2 hsrcT hsrcP
  have hdestSurv := hsurv cb.1.destId hdestMem hD.1 hdestT hdestP
  simp only [hsrcSurv, hdestSurv]
  decide

theorem removedDataIds_setFlat (g : DataModel) (items : List String) (k : Nat) :
    removedDataIds { ptLst := setFlatTexts g.ptLst items, cxnLst := g.cxnLst } k
      = removedDataIds g k := by
  unfold removedDataIds
  rw [dataNodes_setFlat, List.map_drop, List.map_drop, setFlatTexts_modelId]

theorem removedTransIds_setFlat (g : DataModel) (items : List String) (k : Nat) :
    removedTransIds { ptLst := setFlatTexts g.ptLst items, cxnLst := g.cxnLst } k
      = removedTransIds g k := by
  unfold removedTransIds
  rw [removedDataIds_setFlat]

theorem removalScan_setFlat (g : DataModel) (items : List String) (k : Nat) :
    removalScan { ptLst := setFlatTexts g.ptLst items, cxnLst := g.cxnLst } k
      = removalScan g k := by
  unfold removalScan
  rw [removedDataIds_setFlat, removedTransIds_setFlat]

theorem removedPresIds_setFlat (g : DataModel) (items : List String) (k : Nat) :
    removedPresIds { ptLst := setFlatTexts g.ptLst items, cxnLst := g.cxnLst } k
      = removedPresIds g k := by
  unfold removedPresIds
  rw [removalScan_setFlat]

theorem danglingEndpoints_setFlat (g : DataModel) (items : List String) :
    danglingEndpoints { ptLst := setFlatTexts g.ptLst items, cxnLst := g.cxnLst }
      = danglingEndpoints g := by
  unfold danglingEndpoints
  simp only [setFlatTexts_modelId]

/-- C2 (amended): when flat synthesis shrinks the graph, removing each
surplus data node removes its collected transition ids, its `ParentOf`
connection, every `PresentationOf` connection sourced at a removed data
or transition node together with the presentation points those
connections name, and every `PresentationParentOf` connection whose
**destination** is such a presentation point; provided the seed is
template-shaped — transition ids occur only as `presOf` sources and
never as destinations, removed presentation ids occur only as `presOf`
or `presParOf` destinations and never as sources, each `presParOf`
aimed at a removed presentation point is scanned after the `presOf`
that marks that point, and presentation points have unique presenting
sources — the resulting graph has zero dangling connection endpoints.
(The claim's unconditional form, including removal of `presParOf`
connections merely *touching* a removed presentation point, fails; see
the counterexample.) -/
theorem deletion_cascade_amended (fresh : Nat → String) (g : DataModel) (items : List String)
    (hshrink : items.length < (dataNodes g).length)
    (hclean : danglingEndpoints g = [])
    (W1 : ∀ c ∈ g.cxnLst, c.destId ∉ removedTransIds g items.length ∧
        (c.srcId ∈ removedTransIds g items.length → c.cxnType = some "presOf"))
    (W2 : ∀ c ∈ g.cxnLst, c.srcId ∉ removedPresIds g items.length ∧
        (c.destId ∈ removedPresIds g items.length →
          c.cxnType = some "presOf" ∨ c.cxnType = some "presParOf"))
    (W3 : ∀ cb ∈ (removalScan g items.length).1,
        cb.1.cxnType = some "presParOf" → cb.1.destId ∈ removedPresIds g items.length →
        cb.2 = true)
    (W4 : ∀ c1 ∈ g.cxnLst, ∀ c2 ∈ g.cxnLst,
        c1.cxnType = some "presOf" → c2.cxnType = some "presOf" →
        c1.destId = c2.destId → c1.srcId = c2.srcId) :
    danglingEndpoints (modifyTemplateDataFlat fresh g items) = [] := by
  have hng : ¬ (dataNodes g).length < items.length := by omega
  unfold modifyTemplateDataFlat
  simp only [hshrink, if_true, hng, if_false]
  apply removeExcess_no_dangling
  · rw [danglingEndpoints_setFlat]
    exact hclean
  · intro c hcg
    rw [removedTransIds_setFlat]
    exact W1 c hcg
  · intro c hcg
    rw [removedPresIds_setFlat]
    exact W2 c hcg
  · intro cb hcb
    rw [removalScan_setFlat] at hcb
    rw [removedPresIds_setFlat]
    exact W3 cb hcb
  · exact W4

/-- C2, counterexample: removing the surplus data node `"b"` of
`seedPresParSrc` removes its presentation point `"p"` but not the
`presParOf` connection *sourced* at `"p"`; that connection remains with
a source id naming no point in the graph — a dangling endpoint. -/
theorem deletion_cascade_dangling_cex :
    danglingEndpoints (modifyTemplateDataFlat cexFresh seedPresParSrc ["x"]) ≠ [] ∧
    (∃ c ∈ (modifyTemplateDataFlat cexFresh seedPresParSrc ["x"]).cxnLst,
      c.cxnType = some "presParOf" ∧ c.srcId = "p" ∧
      ∀ p ∈ (modifyTemplateDataFlat cexFresh seedPresParSrc ["x"]).ptLst,
        p.modelId ≠ "p") := by
  refine ⟨by decide, by decide⟩

/-- A template-shaped seed: two data nodes with transition pairs, a
root presentation point, one presentation point per data node and per
referenced sibling transition, with all `presOf` connections scanned
before the `presParOf` connections. -/
def seedCascadeW : DataModel :=
  { ptLst := [⟨"d", some "doc", none, 0, none⟩,
              ⟨"a", none, some "t", 1, none⟩,
              ⟨"b", none, some "u", 1, none⟩,
              ⟨"ta", some "parTrans", none, 0, some "c1"⟩,
              ⟨"sa", some "sibTrans", none, 0, some "c1"⟩,
              ⟨"tb", some "parTrans", none, 0, some "c2"⟩,
              ⟨"sb", some "sibTrans", none, 0, some "c2"⟩,
              ⟨"M", some "pres", none, 2, none⟩,
              ⟨"Pa", some "pres", none, 2, none⟩,
              ⟨"Pb", some "pres", none, 2, none⟩,
              ⟨"Sb", some "pres", none, 2, none⟩],
    cxnLst := [⟨"c1", some "parOf", "d", "a", 0, 0, "ta", "sa"⟩,
               ⟨"c2", some "parOf", "d", "b", 1, 0, "tb", "sb"⟩,
               ⟨"c3", some "presOf", "d", "M", 0, 0, "", ""⟩,
               ⟨"c4", some "presOf", "a", "Pa", 0, 0, "", ""⟩,
               ⟨"c5", some "presOf", "b", "Pb", 0, 0, "", ""⟩,
               ⟨"c6", some "presOf", "sb", "Sb", 0, 0, "", ""⟩,
               ⟨"c7", some "presParOf", "M", "Pa", 0, 0, "", ""⟩,
               ⟨"c8", some "presParOf", "M", "Pb", 1, 0, "", ""⟩,
               ⟨"c9", some "presParOf", "M", "Sb", 2, 0, "", ""⟩] }

/-- C2, witness: shrinking the template-shaped seed from two data nodes
to one leaves zero dangling connection endpoints. -/
theorem deletion_cascade_amended_witness :
    danglingEndpoints seedCascadeW = [] ∧
    danglingEndpoints (modifyTemplateDataFlat cexFresh seedCascadeW ["x"]) = [] :=
  ⟨by decide,
   deletion_cascade_amended cexFresh seedCascadeW ["x"] (by decide) (by decide)
     (by decide) (by decide) (by decide) (by decide)⟩

/-! ## Claim C1 -/

theorem contains_eq_false {l : List String} {x : String} (h : x ∉ l) : l.contains x = false := by
  cases hb : l.contains x
  · rfl
  · exact absurd (List.elem_iff.mp hb) h

theorem mem_of_getLast?_eq {α : Type} {l : List α} {a : α} (h : l.getLast? = some a) :
    a ∈ l := by
  rcases List.mem_getLast?_eq_getLast (show a ∈ l.getLast? from Option.mem_def.mpr h) with
    ⟨hne, heq⟩
  rw [heq]
  exact List.getLast_mem hne

theorem presScan_mem_false (allR : List String) (cs : List Cxn) :
    ∀ (pres : List String), ∀ c ∈ cs,
      ¬(c.cxnType = some "presOf" ∧ c.srcId ∈ allR) → c.cxnType ≠ some "presParOf" →
      (c, false) ∈ (presScan allR cs pres).1 := by
  induction cs with
  | nil => intro pres c hc; cases hc
  | cons d cs ih =>
    intro pres c hc hn1 hn2
    by_cases h1 : (d.cxnType == some "presOf" && allR.contains d.srcId) = true
    · rw [presScan_cons_presOf allR d cs pres h1]
      rcases List.mem_cons.mp hc with rfl | hmem
      · exfalso
        apply hn1
        simp only [Bool.and_eq_true, beq_iff_eq] at h1
        exact ⟨h1.1, List.elem_iff.mp h1.2⟩
      · exact List.mem_cons_of_mem _ (ih _ c hmem hn1 hn2)
    · by_cases h2 : (d.cxnType == some "presParOf" && pres.contains d.destId) = true
      · rw [presScan_cons_presPar allR d cs pres h1 h2]
        rcases List.mem_cons.mp hc with rfl | hmem
        · exfalso
          apply hn2
          simp only [Bool.and_eq_true, beq_iff_eq] at h2
          exact h2.1
        · exact List.mem_cons_of_mem _ (ih _ c hmem hn1 hn2)
      · rw [presScan_cons_other allR d cs pres h1 h2]
        rcases List.mem_cons.mp hc with rfl | hmem
        · exact List.mem_cons_self _ _
        · exact List.mem_cons_of_mem _ (ih _ c hmem hn1 hn2)

theorem dataNodes_nodup_ids (g : DataModel)
    (hNodup : (g.ptLst.map (fun p => p.modelId)).Nodup) :
    ((dataNodes g).map (fun p => p.modelId)).Nodup :=
  ((List.filter_sublist g.ptLst).map (fun p => p.modelId)).nodup hNodup

theorem removedDataIds_sub_data (g : DataModel) (k : Nat) :
    ∀ x ∈ removedDataIds g k, ∃ p ∈ dataNodes g, p.modelId = x := by
  intro x hx
  rcases List.mem_map.mp hx with ⟨p, hp, rfl⟩
  exact ⟨p, List.mem_of_mem_drop hp, rfl⟩

theorem kept_data_not_removed (g : DataModel) (k : Nat)
    (hNodup : (g.ptLst.map (fun p => p.modelId)).Nodup)
    (hTrans : ∀ t ∈ removedTransIds g k, ∃ p ∈ g.ptLst, p.modelId = t ∧
        (p.ptType = some "parTrans" ∨ p.ptType = some "sibTrans"))
    (hPresT : ∀ c ∈ g.cxnLst, c.cxnType = some "presOf" →
        ∃ q ∈ g.ptLst, q.modelId = c.destId ∧ q.ptType = some "pres")
    (x : String) (hx : x ∈ ((dataNodes g).take k).map (fun p => p.modelId)) :
    x ∉ removedDataIds g k ∧ x ∉ removedTransIds g k ∧ x ∉ removedPresIds g k := by
  rcases List.mem_map.mp hx with ⟨p, hpTake, rfl⟩
  have hpMem : p ∈ dataNodes g := List.mem_of_mem_take hpTake
  have hpPt : p ∈ g.ptLst := (List.mem_filter.mp hpMem).1
  have hpNone : p.ptType = none :=
    Option.isNone_iff_eq_none.mp (List.mem_filter.mp hpMem).2
  have hdn := dataNodes_nodup_ids g hNodup
  refine ⟨?_, ?_, ?_⟩
  · intro hmem
    rcases List.mem_map.mp hmem with ⟨p2, hp2, hid⟩
    have : p2 = p := List.inj_on_of_nodup_map hdn (List.mem_of_mem_drop hp2) hpMem hid
    rw [this] at hp2
    exact (List.disjoint_take_drop (List.Nodup.of_map _ hdn) le_rfl) hpTake hp2
  · intro hmem
    rcases hTrans p.modelId hmem with ⟨q, hq, hqid, hqty⟩
    have : p = q := List.inj_on_of_nodup_map hNodup hpPt hq hqid.symm
    rcases hqty with h | h <;> rw [← this, hpNone] at h <;> cases h
  · intro hmem
    rcases presScan_pres_char _ g.cxnLst [] p.modelId hmem with hfalse | ⟨c', hc', hty', _, hdest'⟩
    · cases hfalse
    · rcases hPresT c' hc' hty' with ⟨q, hq, hqid, hqty⟩
      have hid : q.modelId = p.modelId := by rw [hqid, hdest']
      have : q = p := List.inj_on_of_nodup_map hNodup hq hpPt hid
      rw [this, hpNone] at hqty
      cases hqty

theorem pres_pt_not_removed (g : DataModel) (k : Nat)
    (hNodup : (g.ptLst.map (fun p => p.modelId)).Nodup)
    (hTrans : ∀ t ∈ removedTransIds g k, ∃ p ∈ g.ptLst, p.modelId = t ∧
        (p.ptType = some "parTrans" ∨ p.ptType = some "sibTrans"))
    (hOwn : ∀ c1 ∈ g.cxnLst, ∀ c2 ∈ g.cxnLst,
        c1.cxnType = some "presOf" → c2.cxnType = some "presOf" →
        c1.destId = c2.destId → c1.srcId = c2.srcId)
    (c : Cxn) (hc : c ∈ g.cxnLst) (hcty : c.cxnType = some "presOf")
    (hsrcD : c.srcId ∉ removedDataIds g k) (hsrcT : c.srcId ∉ removedTransIds g k)
    (q : Pt) (hq : q ∈ g.ptLst) (hqid : q.modelId = c.destId) (hqty : q.ptType = some "pres") :
    q.modelId ∉ removedDataIds g k ∧ q.modelId ∉ removedTransIds g k ∧
      q.modelId ∉ removedPresIds g k := by
  refine ⟨?_, ?_, ?_⟩
  · intro hmem
    rcases removedDataIds_sub_data g k q.modelId hmem with ⟨p2, hp2, hid⟩
    have hp2Pt : p2 ∈ g.ptLst := (List.mem_filter.mp hp2).1
    have hp2None : p2.ptType = none :=
      Option.isNone_iff_eq_none.mp (List.mem_filter.mp hp2).2
    have : p2 = q := List.inj_on_of_nodup_map hNodup hp2Pt hq hid
    rw [this, hqty] at hp2None
    cases hp2None
  · intro hmem
    rcases hTrans q.modelId hmem with ⟨p2, hp2, hid, hty2⟩
    have : q = p2 := List.inj_on_of_nodup_map hNodup hq hp2 hid.symm
    rcases hty2 with h | h <;> rw [← this, hqty] at h <;> exact absurd h (by decide)
  · intro hmem
    rcases presScan_pres_char _ g.cxnLst [] q.modelId hmem with hfalse | ⟨c2, hc2, hty2, hsrc2, hdest2⟩
    · cases hfalse
    · have hdd : c.destId = c2.destId := by rw [← hqid, hdest2]
      have hss := hOwn c hc c2 hc2 hcty hty2 hdd
      rcases List.mem_append.mp (hss ▸ hsrc2) with h | h
      · exact hsrcD h
      · exact hsrcT h

theorem presOf_kept (g : DataModel) (k : Nat) (c : Cxn) (hc : c ∈ g.cxnLst)
    (hcty : c.cxnType = some "presOf")
    (hsrcD : c.srcId ∉ removedDataIds g k) (hsrcT : c.srcId ∉ removedTransIds g k)
    (hdestD : c.destId ∉ removedDataIds g k) :
    c ∈ (removeExcessNodes g k).cxnLst := by
  have htouch : touchesRemoved (removedDataIds g k) c = false := by
    unfold touchesRemoved
    rw [contains_eq_false hdestD, contains_eq_false hsrcD]
    rfl
  have hscan : (c, false) ∈ (removalScan g k).1 := by
    apply presScan_mem_false _ g.cxnLst [] c hc
    · rintro ⟨_, hmem⟩
      rcases List.mem_append.mp hmem with h | h
      · exact hsrcD h
      · exact hsrcT h
    · rw [hcty]
      decide
  have hres : (removeExcessNodes g k).cxnLst
      = ((removalScan g k).1.filter
          (fun cb => !(touchesRemoved (removedDataIds g k) cb.1 || cb.2))).map
        (fun cb => cb.1) := rfl
  rw [hres]
  refine List.mem_map.mpr ⟨(c, false), List.mem_filter.mpr ⟨hscan, ?_⟩, rfl⟩
  rw [htouch]
  rfl

theorem pt_kept (g : DataModel) (k : Nat) (p : Pt) (hp : p ∈ g.ptLst)
    (h1 : p.modelId ∉ removedDataIds g k) (h2 : p.modelId ∉ removedTransIds g k)
    (h3 : p.modelId ∉ removedPresIds g k) :
    p ∈ (removeExcessNodes g k).ptLst := by
  have hres : (removeExcessNodes g k).ptLst
      = g.ptLst.filter (fun p => !((removedDataIds g k ++ removedTransIds g k
          ++ removedPresIds g k).contains p.modelId)) := rfl
  rw [hres]
  refine List.mem_filter.mpr ⟨hp, ?_⟩
  have : (removedDataIds g k ++ removedTransIds g k
      ++ removedPresIds g k).contains p.modelId = false := by
    apply contains_eq_false
    intro hmem
    rcases List.mem_append.mp hmem with hab | h
    · rcases List.mem_append.mp hab with h | h
      · exact h1 h
      · exact h2 h
    · exact h3 h
  rw [this]
  rfl

theorem removeExcess_cxn_sub (g : DataModel) (k : Nat) :
    ∀ c ∈ (removeExcessNodes g k).cxnLst, c ∈ g.cxnLst := by
  intro c hc
  have hres : (removeExcessNodes g k).cxnLst
      = ((removalScan g k).1.filter
          (fun cb => !(touchesRemoved (removedDataIds g k) cb.1 || cb.2))).map
        (fun cb => cb.1) := rfl
  rw [hres] at hc
  rcases List.mem_map.mp hc with ⟨cb, hcbf, rfl⟩
  exact presScan_fst_mem _ g.cxnLst [] cb (List.mem_filter.mp hcbf).1

theorem removeExcess_data_nodes (g : DataModel) (k : Nat)
    (hNodup : (g.ptLst.map (fun p => p.modelId)).Nodup)
    (hTrans : ∀ t ∈ removedTransIds g k, ∃ p ∈ g.ptLst, p.modelId = t ∧
        (p.ptType = some "parTrans" ∨ p.ptType = some "sibTrans"))
    (hPresT : ∀ c ∈ g.cxnLst, c.cxnType = some "presOf" →
        ∃ q ∈ g.ptLst, q.modelId = c.destId ∧ q.ptType = some "pres") :
    dataNodes (removeExcessNodes g k) = (dataNodes g).take k := by
  have hres : (removeExcessNodes g k).ptLst
      = g.ptLst.filter (fun p => !((removedDataIds g k ++ removedTransIds g k
          ++ removedPresIds g k).contains p.modelId)) := rfl
  unfold dataNodes
  rw [hres, List.filter_filter]
  have hcomm : ∀ (l : List Pt),
      l.filter (fun p => p.ptType.isNone
        && !((removedDataIds g k ++ removedTransIds g k
            ++ removedPresIds g k).contains p.modelId))
      = (l.filter (fun p => p.ptType.isNone)).filter
          (fun p => !((removedDataIds g k ++ removedTransIds g k
            ++ removedPresIds g k).contains p.modelId)) := by
    intro l
    rw [List.filter_filter]
    apply List.filter_congr
    intro p _
    exact Bool.and_comm _ _
  rw [hcomm g.ptLst]
  have hsplit : (dataNodes g).filter
      (fun p => !((removedDataIds g k ++ removedTransIds g k
        ++ removedPresIds g k).contains p.modelId)) = (dataNodes g).take k := by
    conv_lhs => rw [← List.take_append_drop k (dataNodes g)]
    rw [List.filter_append]
    have htake : ((dataNodes g).take k).filter
        (fun p => !((removedDataIds g k ++ removedTransIds g k
          ++ removedPresIds g k).contains p.modelId)) = (dataNodes g).take k := by
      apply List.filter_eq_self.mpr
      intro p hp
      have hkept := kept_data_not_removed g k hNodup hTrans hPresT p.modelId
        (List.mem_map.mpr ⟨p, hp, rfl⟩)
      have : (removedDataIds g k ++ removedTransIds g k
          ++ removedPresIds g k).contains p.modelId = false := by
        apply contains_eq_false
        intro hmem
        rcases List.mem_append.mp hmem with hab | h
        · rcases List.mem_append.mp hab with h | h
          · exact hkept.1 h
          · exact hkept.2.1 h
        · exact hkept.2.2 h
      rw [this]
      rfl
    have hdrop : ((dataNodes g).drop k).filter
        (fun p => !((removedDataIds g k ++ removedTransIds g k
          ++ removedPresIds g k).contains p.modelId)) = [] := by
      apply List.filter_eq_nil_iff.mpr
      intro p hp
      have hmem : p.modelId ∈ removedDataIds g k := List.mem_map.mpr ⟨p, hp, rfl⟩
      have : (removedDataIds g k ++ removedTransIds g k
          ++ removedPresIds g k).contains p.modelId = true :=
        List.elem_iff.mpr (List.mem_append_left _ (List.mem_append_left _ hmem))
      rw [this]
      intro hfalse
      cases hfalse
    rw [htake, hdrop, List.append_nil]
  exact hsplit

theorem dataNodes_map_id_setFlat (g : DataModel) (items : List String) :
    (dataNodes { ptLst := setFlatTexts g.ptLst items, cxnLst := g.cxnLst }).map
        (fun p => p.modelId)
      = (dataNodes g).map (fun p => p.modelId) := by
  rw [dataNodes_setFlat]
  have h := congrArg (List.map (fun q : String × Option String × Nat × Option String => q.1))
    (setFlatTexts_skel (dataNodes g) items)
  simpa [List.map_map, Function.comp, ptSkel] using h

theorem newPts_filter_length (fresh : Nat → String) (lastNode : Pt)
    (hln : lastNode.ptType = none) :
    ∀ l : List (Nat × String),
      ((l.map (fun it => newPtsFor fresh lastNode it.1 it.2)).flatten.filter
        (fun p => p.ptType.isNone)).length = l.length := by
  intro l
  induction l with
  | nil => rfl
  | cons a l ih =>
    have hblock : ((newPtsFor fresh lastNode a.1 a.2).filter
        (fun p => p.ptType.isNone)).length = 1 := by
      simp [newPtsFor, clonedDataPt, setNodeText, newTransPt, hln]
    simp only [List.map_cons, List.flatten_cons, List.filter_append, List.length_append]
    rw [ih, hblock, List.length_cons]
    omega

/-- C1 (amended): for every flat topology, after flat synthesis with
*N* requested labels against a well-formed seed graph holding at least
one data node — point ids unique, every data node presented by at
least one `presOf` connection into a `pres`-typed point, presentation
points having unique presenting sources, collected transition ids and
`presOf` destinations naming points of the matching type, fresh ids
not colliding with existing connection sources — the resulting graph
contains exactly *N* data nodes, and every data node **retained from
the seed** is the source of at least one `PresentationOf` connection
reaching a `PresentationNode`; data nodes appended beyond the seed's
count, however, are given only a clone of the last data node's own
point (plus a transition pair and a `parOf` connection) and **no**
presentation substructure: no `presOf` connection has an appended
node's fresh id as its source. -/
theorem flat_synthesis_node_count (fresh : Nat → String) (g : DataModel) (items : List String)
    (hne : dataNodes g ≠ [])
    (hNodup : (g.ptLst.map (fun p => p.modelId)).Nodup)
    (hPres : ∀ p ∈ dataNodes g, ∃ c ∈ g.cxnLst, c.cxnType = some "presOf" ∧
        c.srcId = p.modelId ∧ ∃ q ∈ g.ptLst, q.modelId = c.destId ∧ q.ptType = some "pres")
    (hOwn : ∀ c1 ∈ g.cxnLst, ∀ c2 ∈ g.cxnLst,
        c1.cxnType = some "presOf" → c2.cxnType = some "presOf" →
        c1.destId = c2.destId → c1.srcId = c2.srcId)
    (hTrans : ∀ t ∈ removedTransIds g items.length, ∃ p ∈ g.ptLst, p.modelId = t ∧
        (p.ptType = some "parTrans" ∨ p.ptType = some "sibTrans"))
    (hPresT : ∀ c ∈ g.cxnLst, c.cxnType = some "presOf" →
        ∃ q ∈ g.ptLst, q.modelId = c.destId ∧ q.ptType = some "pres")
    (hFresh : ∀ n : Nat, ∀ c ∈ g.cxnLst, c.srcId ≠ fresh n) :
    (dataNodes (modifyTemplateDataFlat fresh g items)).length = items.length ∧
    (∀ p ∈ (dataNodes g).take items.length,
      ∃ c ∈ (modifyTemplateDataFlat fresh g items).cxnLst,
        c.cxnType = some "presOf" ∧ c.srcId = p.modelId ∧
        ∃ q ∈ (modifyTemplateDataFlat fresh g items).ptLst,
          q.modelId = c.destId ∧ q.ptType = some "pres") ∧
    (∀ n : Nat, ∀ c ∈ (modifyTemplateDataFlat fresh g items).cxnLst,
      c.cxnType = some "presOf" → c.srcId ≠ fresh n) := by
  have hlen1 : (dataNodes { ptLst := setFlatTexts g.ptLst items, cxnLst := g.cxnLst }).length
      = (dataNodes g).length := by
    have := congrArg List.length (dataNodes_map_id_setFlat g items)
    simpa using this
  have hN1 : (({ ptLst := setFlatTexts g.ptLst items, cxnLst := g.cxnLst } : DataModel).ptLst.map
      (fun p => p.modelId)).Nodup := by
    show ((setFlatTexts g.ptLst items).map (fun p => p.modelId)).Nodup
    rw [setFlatTexts_modelId]
    exact hNodup
  rcases Nat.lt_trichotomy items.length (dataNodes g).length with hlt | heq | hgt
  · -- shrink
    have hng : ¬ (dataNodes g).length < items.length := by omega
    have hmod : modifyTemplateDataFlat fresh g items
        = removeExcessNodes { ptLst := setFlatTexts g.ptLst items, cxnLst := g.cxnLst }
            items.length := by
      simp only [modifyTemplateDataFlat]
      rw [if_pos hlt, if_neg hng]
    rw [hmod]
    set g1 : DataModel := { ptLst := setFlatTexts g.ptLst items, cxnLst := g.cxnLst } with hg1
    have hT1 : ∀ t ∈ removedTransIds g1 items.length, ∃ p ∈ g1.ptLst, p.modelId = t ∧
        (p.ptType = some "parTrans" ∨ p.ptType = some "sibTrans") := by
      intro t ht
      rw [hg1, removedTransIds_setFlat] at ht
      rcases hTrans t ht with ⟨p, hp, hid, hty⟩
      have hpNonData : ¬ p.ptType.isNone = true := by
        rcases hty with h | h <;> rw [h] <;> decide
      exact ⟨p, setFlatTexts_mem_nonData g.ptLst items p hp hpNonData, hid, hty⟩
    have hPT1 : ∀ c ∈ g1.cxnLst, c.cxnType = some "presOf" →
        ∃ q ∈ g1.ptLst, q.modelId = c.destId ∧ q.ptType = some "pres" := by
      intro c hc hcty
      rcases hPresT c hc hcty with ⟨q, hq, hqid, hqty⟩
      have hqNonData : ¬ q.ptType.isNone = true := by rw [hqty]; decide
      exact ⟨q, setFlatTexts_mem_nonData g.ptLst items q hq hqNonData, hqid, hqty⟩
    have hOwn1 : ∀ c1 ∈ g1.cxnLst, ∀ c2 ∈ g1.cxnLst,
        c1.cxnType = some "presOf" → c2.cxnType = some "presOf" →
        c1.destId = c2.destId → c1.srcId = c2.srcId := hOwn
    refine ⟨?_, ?_, ?_⟩
    · rw [removeExcess_data_nodes g1 items.length hN1 hT1 hPT1, List.length_take]
      omega
    · intro p hp
      have hpMem : p ∈ dataNodes g := List.mem_of_mem_take hp
      rcases hPres p hpMem with ⟨c, hc, hcty, hcsrc, q, hq, hqid, hqty⟩
      have hx : p.modelId ∈ ((dataNodes g1).take items.length).map (fun p => p.modelId) := by
        rw [List.map_take, hg1, dataNodes_map_id_setFlat, ← List.map_take]
        exact List.mem_map.mpr ⟨p, hp, rfl⟩
      have hkept := kept_data_not_removed g1 items.length hN1 hT1 hPT1 p.modelId hx
      have hq1 : q ∈ g1.ptLst := by
        have hqNonData : ¬ q.ptType.isNone = true := by rw [hqty]; decide
        exact setFlatTexts_mem_nonData g.ptLst items q hq hqNonData
      have hQkept := pres_pt_not_removed g1 items.length hN1 hT1 hOwn1 c hc hcty
        (by rw [hcsrc]; exact hkept.1) (by rw [hcsrc]; exact hkept.2.1) q hq1 hqid hqty
      refine ⟨c, ?_, hcty, hcsrc, q, ?_, hqid, hqty⟩
      · exact presOf_kept g1 items.length c hc hcty
          (by rw [hcsrc]; exact hkept.1) (by rw [hcsrc]; exact hkept.2.1)
          (by rw [← hqid]; exact hQkept.1)
      · exact pt_kept g1 items.length q hq1 hQkept.1 hQkept.2.1 hQkept.2.2
    · intro n c hcres hcty
      exact hFresh n c (removeExcess_cxn_sub g1 items.length c hcres)
  · -- equal
    have hnl : ¬ items.length < (dataNodes g).length := by omega
    have hng : ¬ (dataNodes g).length < items.length := by omega
    have hmod : modifyTemplateDataFlat fresh g items
        = { ptLst := setFlatTexts g.ptLst items, cxnLst := g.cxnLst } := by
      simp only [modifyTemplateDataFlat]
      rw [if_neg hnl, if_neg hng]
    rw [hmod]
    refine ⟨by rw [hlen1]; omega, ?_, ?_⟩
    · intro p hp
      have hpMem : p ∈ dataNodes g := List.mem_of_mem_take hp
      rcases hPres p hpMem with ⟨c, hc, hcty, hcsrc, q, hq, hqid, hqty⟩
      have hqNonData : ¬ q.ptType.isNone = true := by rw [hqty]; decide
      exact ⟨c, hc, hcty, hcsrc, q,
        setFlatTexts_mem_nonData g.ptLst items q hq hqNonData, hqid, hqty⟩
    · intro n c hcres hcty
      exact hFresh n c hcres
  · -- grow
    have hnl : ¬ items.length < (dataNodes g).length := by omega
    have hmod : modifyTemplateDataFlat fresh g items
        = addExtraNodes fresh { ptLst := setFlatTexts g.ptLst items, cxnLst := g.cxnLst }
            (items.drop (dataNodes g).length) := by
      simp only [modifyTemplateDataFlat]
      rw [if_neg hnl, if_pos hgt]
    rw [hmod]
    set g1 : DataModel := { ptLst := setFlatTexts g.ptLst items, cxnLst := g.cxnLst } with hg1
    have hlast : ∃ ln, (dataNodes g1).getLast? = some ln := by
      cases hh : (dataNodes g1).getLast? with
      | none =>
        exfalso
        have : dataNodes g1 = [] := List.getLast?_eq_none_iff.mp hh
        have h0 : (dataNodes g1).length = 0 := by rw [this]; rfl
        rw [hlen1] at h0
        have : dataNodes g = [] := List.length_eq_zero.mp h0
        exact hne this
      | some ln => exact ⟨ln, rfl⟩
    obtain ⟨ln, hlast1⟩ := hlast
    have hlnMem : ln ∈ dataNodes g1 := mem_of_getLast?_eq hlast1
    have hlnNone : ln.ptType = none :=
      Option.isNone_iff_eq_none.mp (List.mem_filter.mp hlnMem).2
    have hparts := addExtraNodes_parts fresh g1 (items.drop (dataNodes g).length) ln hlast1
    refine ⟨?_, ?_, ?_⟩
    · show ((addExtraNodes fresh g1 (items.drop (dataNodes g).length)).ptLst.filter
        (fun p => p.ptType.isNone)).length = items.length
      rw [hparts.1, List.filter_append, List.length_append]
      have h1 : ((g1.ptLst.filter (fun p => p.ptType.isNone))).length = (dataNodes g).length := by
        show (dataNodes g1).length = (dataNodes g).length
        exact hlen1
      rw [h1, newPts_filter_length fresh ln hlnNone, List.enum_length, List.length_drop]
      omega
    · intro p hp
      have hpMem : p ∈ dataNodes g := List.mem_of_mem_take hp
      rcases hPres p hpMem with ⟨c, hc, hcty, hcsrc, q, hq, hqid, hqty⟩
      have hqNonData : ¬ q.ptType.isNone = true := by rw [hqty]; decide
      refine ⟨c, ?_, hcty, hcsrc, q, ?_, hqid, hqty⟩
      · rw [hparts.2]
        exact List.mem_append_left _ hc
      · rw [hparts.1]
        exact List.mem_append_left _
          (setFlatTexts_mem_nonData g.ptLst items q hq hqNonData)
    · intro n c hcres hcty
      rw [hparts.2] at hcres
      rcases List.mem_append.mp hcres with hmem | hmem
      · exact hFresh n c hmem
      · rcases List.mem_map.mp hmem with ⟨i, _, rfl⟩
        rw [show (newCxnFor fresh (docIdOf g1) (lastOrdOf g1 ln.modelId) i).cxnType
            = some "parOf" from rfl] at hcty
        exact absurd hcty (by decide)

/-- A constant stand-in fresh-id supply colliding with no seed id. -/
def constFresh : Nat → String := fun _ => "ZZZ"

/-- C1, witness: the amended theorem applied to the template-shaped
two-node seed shrunk to one item. -/
theorem flat_synthesis_node_count_witness :
    (dataNodes (modifyTemplateDataFlat constFresh seedCascadeW ["x"])).length = 1 ∧
    (∀ p ∈ (dataNodes seedCascadeW).take 1,
      ∃ c ∈ (modifyTemplateDataFlat constFresh seedCascadeW ["x"]).cxnLst,
        c.cxnType = some "presOf" ∧ c.srcId = p.modelId ∧
        ∃ q ∈ (modifyTemplateDataFlat constFresh seedCascadeW ["x"]).ptLst,
          q.modelId = c.destId ∧ q.ptType = some "pres") ∧
    (∀ n : Nat, ∀ c ∈ (modifyTemplateDataFlat constFresh seedCascadeW ["x"]).cxnLst,
      c.cxnType = some "presOf" → c.srcId ≠ constFresh n) :=
  flat_synthesis_node_count constFresh seedCascadeW ["x"] (by decide) (by decide) (by decide)
    (by decide) (by decide) (by decide)
    (by
      intro n
      show ∀ c ∈ seedCascadeW.cxnLst, c.srcId ≠ constFresh n
      rw [show constFresh n = "ZZZ" from rfl]
      decide)

/-- C1, counterexample: growing the one-node seed to two items appends
a data node with no `PresentationOf` connection at all — the graph has
two data nodes but the appended one reaches no `PresentationNode`,
refuting the claim's presentation clause for appended nodes. -/
theorem appended_node_lacks_presentation_cex :
    (dataNodes (modifyTemplateDataFlat cexFresh seedOneNode ["x", "y"])).length = 2 ∧
    (∃ p ∈ dataNodes (modifyTemplateDataFlat cexFresh seedOneNode ["x", "y"]),
      ∀ c ∈ (modifyTemplateDataFlat cexFresh seedOneNode ["x", "y"]).cxnLst,
        ¬(c.cxnType = some "presOf" ∧ c.srcId = p.modelId)) := by
  refine ⟨by decide, by decide⟩

/-! ## Claim C6 -/

theorem walkChildren_nil (cm : String → List String) (labels : List String) :
    walkChildren cm [] labels = [] := by
  conv_lhs => rw [walkChildren.eq_def]

theorem walkChildren_noLabels (cm : String → List String) (c : String) (cs : List String) :
    walkChildren cm (c :: cs) [] = [] := by
  conv_lhs => rw [walkChildren.eq_def]

theorem walkChildren_cons (cm : String → List String) (c : String) (cs : List String)
    (l : String) (ls : List String) :
    walkChildren cm (c :: cs) (l :: ls)
      = (c, l) :: (walkChildren cm (cm c) ls
          ++ walkChildren cm cs (ls.drop (walkChildren cm (cm c) ls).length)) := by
  conv_lhs => rw [walkChildren.eq_def]

theorem dfsTake_nil (cm : String → List String) (n : Nat) : dfsTake cm [] n = [] := by
  conv_lhs => rw [dfsTake.eq_def]

theorem dfsTake_zero (cm : String → List String) (c : String) (cs : List String) :
    dfsTake cm (c :: cs) 0 = [] := by
  conv_lhs => rw [dfsTake.eq_def]

theorem dfsTake_cons (cm : String → List String) (c : String) (cs : List String) (n : Nat) :
    dfsTake cm (c :: cs) (n + 1)
      = c :: (dfsTake cm (cm c) n ++ dfsTake cm cs (n - (dfsTake cm (cm c) n).length)) := by
  conv_lhs => rw [dfsTake.eq_def]

theorem dfsTake_length_le (cm : String → List String) :
    ∀ (n b : Nat), b ≤ n → ∀ cs, (dfsTake cm cs b).length ≤ b := by
  intro n
  induction n with
  | zero =>
    intro b hb cs
    have : b = 0 := by omega
    subst this
    cases cs with
    | nil => rw [dfsTake_nil]; simp
    | cons c cs => rw [dfsTake_zero]; simp
  | succ n ih =>
    intro b hb cs
    cases cs with
    | nil => rw [dfsTake_nil]; simp
    | cons c cs =>
      cases b with
      | zero => rw [dfsTake_zero]; simp
      | succ m =>
        rw [dfsTake_cons]
        have h1 := ih m (by omega) (cm c)
        have h2 := ih (m - (dfsTake cm (cm c) m).length) (by omega) cs
        simp only [List.length_cons, List.length_append]
        omega

theorem dfsTake_subset (cm : String → List String) :
    ∀ (n b : Nat), b ≤ n → ∀ cs, ∀ x ∈ dfsTake cm cs b, x ∈ cs ∨ ∃ y, x ∈ cm y := by
  intro n
  induction n with
  | zero =>
    intro b hb cs x hx
    have : b = 0 := by omega
    subst this
    cases cs with
    | nil => rw [dfsTake_nil] at hx; cases hx
    | cons c cs => rw [dfsTake_zero] at hx; cases hx
  | succ n ih =>
    intro b hb cs x hx
    cases cs with
    | nil => rw [dfsTake_nil] at hx; cases hx
    | cons c cs =>
      cases b with
      | zero => rw [dfsTake_zero] at hx; cases hx
      | succ m =>
        rw [dfsTake_cons] at hx
        rcases List.mem_cons.mp hx with rfl | hx2
        · exact Or.inl (List.mem_cons_self _ _)
        · rcases List.mem_append.mp hx2 with h | h
          · rcases ih m (by omega) (cm c) x h with h2 | h2
            · exact Or.inr ⟨c, h2⟩
            · exact Or.inr h2
          · rcases ih (m - (dfsTake cm (cm c) m).length) (by omega) cs x h with h2 | h2
            · exact Or.inl (List.mem_cons_of_mem _ h2)
            · exact Or.inr h2

theorem zip_append_drop {α β : Type} (a b : List α) (l : List β) (h : a.length ≤ l.length) :
    (a ++ b).zip l = a.zip l ++ b.zip (l.drop a.length) := by
  induction a generalizing l with
  | nil => simp
  | cons x a ih =>
    cases l with
    | nil => simp at h
    | cons y l =>
      simp only [List.cons_append, List.zip_cons_cons, List.length_cons]
      rw [ih l (by simpa using h)]
      rfl

theorem walkChildren_eq_zip (cm : String → List String) :
    ∀ (n : Nat) (labels : List String), labels.length ≤ n →
      ∀ cs, walkChildren cm cs labels = (dfsTake cm cs labels.length).zip labels := by
  intro n
  induction n with
  | zero =>
    intro labels hlen cs
    have : labels = [] := List.length_eq_zero.mp (by omega)
    subst this
    cases cs with
    | nil => rw [walkChildren_nil, dfsTake_nil]; rfl
    | cons c cs => rw [walkChildren_noLabels]; simp
  | succ n ih =>
    intro labels hlen cs
    cases cs with
    | nil => rw [walkChildren_nil, dfsTake_nil]; rfl
    | cons c cs =>
      cases labels with
      | nil => rw [walkChildren_noLabels]; simp
      | cons l ls =>
        rw [walkChildren_cons, List.length_cons, dfsTake_cons]
        have h1 : ls.length ≤ n := by
          simp only [List.length_cons] at hlen
          omega
        have e1 := ih ls h1 (cm c)
        have hlen1 : (dfsTake cm (cm c) ls.length).length ≤ ls.length :=
          dfsTake_length_le cm ls.length ls.length le_rfl (cm c)
        have hzlen : ((dfsTake cm (cm c) ls.length).zip ls).length
            = (dfsTake cm (cm c) ls.length).length := by
          rw [List.length_zip]
          omega
        rw [e1, hzlen]
        have h2 : (ls.drop (dfsTake cm (cm c) ls.length).length).length ≤ n := by
          rw [List.length_drop]
          omega
        have e2 := ih (ls.drop (dfsTake cm (cm c) ls.length).length) h2 cs
        rw [e2, List.length_drop, List.zip_cons_cons,
          zip_append_drop _ _ ls hlen1]

theorem insertSorted_mem (x y : Int × String) (l : List (Int × String)) :
    y ∈ insertSorted x l ↔ y = x ∨ y ∈ l := by
  induction l with
  | nil => simp [insertSorted]
  | cons z l ih =>
    have e0 : insertSorted x (z :: l)
        = if pairLt z x = true then z :: insertSorted x l else x :: z :: l := rfl
    by_cases h : pairLt z x = true
    · rw [e0, if_pos h]
      simp only [List.mem_cons, ih]
      tauto
    · rw [e0, if_neg h]
      simp only [List.mem_cons]

theorem sortPairs_mem (y : Int × String) (l : List (Int × String)) :
    y ∈ sortPairs l ↔ y ∈ l := by
  induction l with
  | nil => simp [sortPairs]
  | cons z l ih =>
    unfold sortPairs at ih ⊢
    simp only [List.foldr_cons, insertSorted_mem, ih, List.mem_cons]

theorem hierChildren_sub_data (g : DataModel) (src : String) :
    ∀ x ∈ hierChildren g src, x ∈ dataIds g := by
  intro x hx
  rcases List.mem_map.mp hx with ⟨pr, hpr, rfl⟩
  have hpr2 := (sortPairs_mem pr _).mp hpr
  rcases List.mem_filterMap.mp hpr2 with ⟨c, _, hcond⟩
  by_cases hb : (c.cxnType == some "parOf" && c.srcId == src
      && (dataIds g).contains c.destId) = true
  · rw [if_pos hb] at hcond
    cases hcond
    simp only [Bool.and_eq_true] at hb
    exact List.elem_iff.mp hb.2
  · rw [if_neg hb] at hcond
    cases hcond

theorem applyAssignments_cons (ps : List Pt) (a : String × String)
    (asn : List (String × String)) :
    applyAssignments ps (a :: asn)
      = applyAssignments
          (ps.map (fun p => if p.modelId = a.1 then { p with text := some a.2 } else p)) asn :=
  rfl

theorem applyAssignments_skel (asn : List (String × String)) :
    ∀ ps : List Pt, (applyAssignments ps asn).map ptSkel = ps.map ptSkel := by
  induction asn with
  | nil => intro ps; rfl
  | cons a asn ih =>
    intro ps
    rw [applyAssignments_cons, ih, List.map_map]
    apply List.map_congr_left
    intro p _
    by_cases h : p.modelId = a.1 <;> simp [h, ptSkel, Function.comp]

theorem applyAssignments_not_mem (asn : List (String × String)) :
    ∀ (ps : List Pt) (p : Pt), p ∈ ps → (∀ a ∈ asn, p.modelId ≠ a.1) →
      p ∈ applyAssignments ps asn := by
  induction asn with
  | nil => intro ps p hp _; exact hp
  | cons a asn ih =>
    intro ps p hp h
    rw [applyAssignments_cons]
    apply ih
    · exact List.mem_map.mpr ⟨p, hp, by rw [if_neg (h a (List.mem_cons_self _ _))]⟩
    · intro b hb
      exact h b (List.mem_cons_of_mem _ hb)

theorem applyAssignments_set (asn : List (String × String)) :
    ∀ (ps : List Pt) (i : Nat) (hi : i < asn.length),
      (asn.map Prod.fst).Nodup →
      ∀ p ∈ ps, p.modelId = (asn.get ⟨i, hi⟩).1 →
      ∃ p2 ∈ applyAssignments ps asn, p2.modelId = p.modelId ∧ p2.ptType = p.ptType ∧
        p2.text = some (asn.get ⟨i, hi⟩).2 := by
  induction asn with
  | nil =>
    intro ps i hi
    exact absurd hi (by simp)
  | cons a asn ih =>
    intro ps i hi hnd p hp hid
    have hndTail : (asn.map Prod.fst).Nodup := (List.nodup_cons.mp hnd).2
    have hhead : a.1 ∉ asn.map Prod.fst := (List.nodup_cons.mp hnd).1
    cases i with
    | zero =>
      rw [applyAssignments_cons]
      have hid0 : p.modelId = a.1 := hid
      have hupd : ({ p with text := some a.2 } : Pt)
          ∈ ps.map (fun q => if q.modelId = a.1 then { q with text := some a.2 } else q) :=
        List.mem_map.mpr ⟨p, hp, by rw [if_pos hid0]⟩
      have hrest := applyAssignments_not_mem asn _ ({ p with text := some a.2 }) hupd (by
        intro b hb heq
        apply hhead
        have hab : a.1 = b.1 := by
          rw [← hid0]
          exact heq
        rw [hab]
        exact List.mem_map.mpr ⟨b, hb, rfl⟩)
      exact ⟨{ p with text := some a.2 }, hrest, rfl, rfl, rfl⟩
    | succ j =>
      rw [applyAssignments_cons]
      have hj : j < asn.length := by
        simp only [List.length_cons] at hi
        omega
      have hidj : p.modelId = (asn.get ⟨j, hj⟩).1 := hid
      have hne : p.modelId ≠ a.1 := by
        rw [hidj]
        intro heq
        exact hhead (heq ▸ List.mem_map.mpr ⟨asn.get ⟨j, hj⟩, List.get_mem _ _ _, rfl⟩)
      have hpm : p ∈ ps.map (fun q => if q.modelId = a.1 then { q with text := some a.2 } else q) :=
        List.mem_map.mpr ⟨p, hp, by rw [if_neg hne]⟩
      exact ih _ j hj hndTail p hpm hidj

/-- C6: hierarchy synthesis walks the seed graph's `parOf` hierarchy
depth-first from the document node in ordering-key order, in lockstep
with the depth-first flattening of the caller's nested label structure,
setting each visited data node's text to the next caller label; when
the caller supplies more labels than the seed has traversable data
nodes, exactly the seed's count of labels are placed — the node visited
i-th receives the i-th flattened label — the excess labels are silently
dropped, and no node is added or removed (the connection list and every
point's identifier, type and payload are unchanged, and points off the
visit order are untouched). -/
theorem hierarchy_lockstep (g : DataModel) (h : List HNode)
    (hcomplete : (dfsTake (hierChildren g) (hierChildren g (docIdOf g))
        (flattenHs h).length).length < (flattenHs h).length)
    (hordNodup : (dfsTake (hierChildren g) (hierChildren g (docIdOf g))
        (flattenHs h).length).Nodup) :
    (modifyTemplateDataHierarchy g h).cxnLst = g.cxnLst ∧
    (modifyTemplateDataHierarchy g h).ptLst.map ptSkel = g.ptLst.map ptSkel ∧
    (∀ i (hi : i < (dfsTake (hierChildren g) (hierChildren g (docIdOf g))
        (flattenHs h).length).length),
      ∃ p2 ∈ (modifyTemplateDataHierarchy g h).ptLst,
        p2.modelId = (dfsTake (hierChildren g) (hierChildren g (docIdOf g))
            (flattenHs h).length).get ⟨i, hi⟩ ∧
        p2.ptType = none ∧
        p2.text = some ((flattenHs h).get ⟨i, by omega⟩)) ∧
    (∀ p ∈ g.ptLst,
      p.modelId ∉ dfsTake (hierChildren g) (hierChildren g (docIdOf g))
        (flattenHs h).length →
      p ∈ (modifyTemplateDataHierarchy g h).ptLst) := by
  have hres : (modifyTemplateDataHierarchy g h).ptLst
      = applyAssignments g.ptLst
          (walkChildren (hierChildren g) (hierChildren g (docIdOf g)) (flattenHs h)) := rfl
  have hzip : walkChildren (hierChildren g) (hierChildren g (docIdOf g)) (flattenHs h)
      = (dfsTake (hierChildren g) (hierChildren g (docIdOf g))
          (flattenHs h).length).zip (flattenHs h) :=
    walkChildren_eq_zip (hierChildren g) (flattenHs h).length (flattenHs h) le_rfl _
  have hfst : ((dfsTake (hierChildren g) (hierChildren g (docIdOf g))
        (flattenHs h).length).zip (flattenHs h)).map Prod.fst
      = dfsTake (hierChildren g) (hierChildren g (docIdOf g)) (flattenHs h).length :=
    List.map_fst_zip _ _ (by omega)
  refine ⟨rfl, ?_, ?_, ?_⟩
  · rw [hres]
    exact applyAssignments_skel _ g.ptLst
  · intro i hi
    have hmemOrder : (dfsTake (hierChildren g) (hierChildren g (docIdOf g))
        (flattenHs h).length).get ⟨i, hi⟩
        ∈ dfsTake (hierChildren g) (hierChildren g (docIdOf g)) (flattenHs h).length :=
      List.get_mem _ _ _
    have hdata : (dfsTake (hierChildren g) (hierChildren g (docIdOf g))
        (flattenHs h).length).get ⟨i, hi⟩ ∈ dataIds g := by
      rcases dfsTake_subset (hierChildren g) (flattenHs h).length (flattenHs h).length
          le_rfl _ _ hmemOrder with h1 | ⟨y, h1⟩
      · exact hierChildren_sub_data g (docIdOf g) _ h1
      · exact hierChildren_sub_data g y _ h1
    rcases List.mem_map.mp hdata with ⟨p, hpData, hpid⟩
    have hpPt : p ∈ g.ptLst := (List.mem_filter.mp hpData).1
    have hpNone : p.ptType = none :=
      Option.isNone_iff_eq_none.mp (List.mem_filter.mp hpData).2
    have hilt : i < ((dfsTake (hierChildren g) (hierChildren g (docIdOf g))
        (flattenHs h).length).zip (flattenHs h)).length := by
      rw [List.length_zip]
      omega
    have hget : ((dfsTake (hierChildren g) (hierChildren g (docIdOf g))
        (flattenHs h).length).zip (flattenHs h)).get ⟨i, hilt⟩
        = ((dfsTake (hierChildren g) (hierChildren g (docIdOf g))
            (flattenHs h).length).get ⟨i, hi⟩, (flattenHs h).get ⟨i, by omega⟩) := by
      simp only [List.get_eq_getElem]
      exact List.getElem_zip
    have hnd2 : (((dfsTake (hierChildren g) (hierChildren g (docIdOf g))
        (flattenHs h).length).zip (flattenHs h)).map Prod.fst).Nodup := by
      rw [hfst]
      exact hordNodup
    rcases applyAssignments_set _ g.ptLst i hilt hnd2 p hpPt
        (by rw [hget, hpid]) with ⟨p2, hp2, hid2, hty2, htext2⟩
    refine ⟨p2, ?_, ?_, ?_, ?_⟩
    · rw [hres, hzip]
      exact hp2
    · rw [hid2, hpid]
    · rw [hty2, hpNone]
    · rw [htext2, hget]
  · intro p hp hnotin
    rw [hres, hzip]
    apply applyAssignments_not_mem _ g.ptLst p hp
    intro a ha heq
    apply hnotin
    rw [heq]
    rw [← hfst]
    exact List.mem_map.mpr ⟨a, ha, rfl⟩

/-- A hierarchy-shaped seed: the document with two children, the first
of which has one child. -/
def seedHier : DataModel :=
  { ptLst := [⟨"d", some "doc", none, 0, none⟩, ⟨"n1", none, some "A0", 1, none⟩,
              ⟨"n2", none, some "B0", 1, none⟩, ⟨"n3", none, some "C0", 1, none⟩],
    cxnLst := [⟨"h1", some "parOf", "d", "n1", 0, 0, "", ""⟩,
               ⟨"h2", some "parOf", "n1", "n2", 0, 0, "", ""⟩,
               ⟨"h3", some "parOf", "d", "n3", 1, 0, "", ""⟩] }

/-- A caller hierarchy with four labels against the seed's three
traversable nodes. -/
def callerHier : List HNode :=
  [.node "A" [.node "B" []], .node "C" [], .node "D" []]

/-- C6, witness: the lockstep theorem applied to the three-node
hierarchy seed with four caller labels. -/
theorem hierarchy_lockstep_witness :
    (modifyTemplateDataHierarchy seedHier callerHier).cxnLst = seedHier.cxnLst ∧
    (modifyTemplateDataHierarchy seedHier callerHier).ptLst.map ptSkel
      = seedHier.ptLst.map ptSkel := by
  have hdoc : docIdOf seedHier = "d" := by decide
  have hflat : flattenHs callerHier = ["A", "B", "C", "D"] := by
    simp [callerHier, flattenHs]
  have hcm_d : hierChildren seedHier "d" = ["n1", "n3"] := by decide
  have hcm_n1 : hierChildren seedHier "n1" = ["n2"] := by decide
  have hcm_n2 : hierChildren seedHier "n2" = [] := by decide
  have hcm_n3 : hierChildren seedHier "n3" = [] := by decide
  have e2 : dfsTake (hierChildren seedHier) ["n2"] 3 = ["n2"] := by
    rw [show (3 : Nat) = 2 + 1 from rfl, dfsTake_cons, hcm_n2, dfsTake_nil, dfsTake_nil]
    rfl
  have e3 : dfsTake (hierChildren seedHier) ["n3"] 2 = ["n3"] := by
    rw [show (2 : Nat) = 1 + 1 from rfl, dfsTake_cons, hcm_n3, dfsTake_nil, dfsTake_nil]
    rfl
  have horder : dfsTake (hierChildren seedHier)
      (hierChildren seedHier (docIdOf seedHier)) (flattenHs callerHier).length
      = ["n1", "n2", "n3"] := by
    rw [hdoc, hcm_d, hflat]
    rw [show (["A", "B", "C", "D"] : List String).length = 3 + 1 from rfl]
    rw [dfsTake_cons, hcm_n1, e2]
    rw [show (3 - (["n2"] : List String).length) = 2 from rfl]
    rw [e3]
    rfl
  have hcomplete : (dfsTake (hierChildren seedHier)
      (hierChildren seedHier (docIdOf seedHier)) (flattenHs callerHier).length).length
      < (flattenHs callerHier).length := by
    rw [horder, hflat]
    decide
  have hordNodup : (dfsTake (hierChildren seedHier)
      (hierChildren seedHier (docIdOf seedHier)) (flattenHs callerHier).length).Nodup := by
    rw [horder]
    decide
  have H := hierarchy_lockstep seedHier callerHier hcomplete hordNodup
  exact ⟨H.1, H.2.1⟩

end SmartArt

